import Mathlib

/-!
# simplelistbox.c: a window with one sorted list box

Shallow embedding of `src/simplelistbox.c` (`WinMain`, `WndProc`, `CreateControl`).

The program is written against the Win32 API, which is not part of the repository.
The embedding therefore threads an explicit `World` through every API call:

* the program's only global, `hList`;
* the platform objects the program can observe (registered classes, windows, list-box
  controls, the pending quit request);
* the values the platform chooses (atoms, handles, default-procedure results), given as
  streams that successive calls consume, so that every theorem quantifies over them;
* the trace of API calls, each tagged with the program function that made it.

Messages that reach the window procedure, whether posted to the queue or sent by the
platform while it runs another call, are represented by the message script handed to
`WinMain`; the program does nothing after `DefWindowProcW` returns, so nesting and
sequencing of deliveries are indistinguishable to it.
-/

namespace SimpleListBox

/-! ## Data model -/

/-- Window handle; `0` is `NULL`. -/
abbrev HWND := Nat

/-- Wide string: the UTF-16 code units of a `L"..."` literal, terminator excluded. -/
abbrev WStr := List Nat

/-- The code units of a wide literal whose characters are all in the basic plane. -/
def L (s : String) : WStr := s.toList.map Char.toNat

/-- An `LPARAM` is either a number or a pointer to a wide string. -/
inductive LPARAM where
  | int (n : Int)
  | wstr (s : WStr)
  deriving DecidableEq, Repr

/-- The `MSG` structure filled in by `GetMessage` (fields the program can observe). -/
structure MSG where
  hwnd : HWND
  message : Nat
  wParam : Nat
  lParam : LPARAM
  deriving DecidableEq, Repr

/-- Window procedures known to the program: none, or the function `WndProc`. -/
inductive WNDPROC where
  | null
  | WndProc
  deriving DecidableEq, Repr

/-- The `WNDCLASSW` structure; the defaults are the `= {0}` initialiser. -/
structure WNDCLASSW where
  style : Nat := 0
  lpfnWndProc : WNDPROC := WNDPROC.null
  cbClsExtra : Int := 0
  cbWndExtra : Int := 0
  hInstance : Nat := 0
  hIcon : Nat := 0
  hCursor : Nat := 0
  hbrBackground : Nat := 0
  lpszMenuName : Option WStr := none
  lpszClassName : Option WStr := none
  deriving DecidableEq, Repr

/-- The program functions that make API calls. -/
inductive Fn where
  | WinMain
  | WndProc
  | CreateControl
  deriving DecidableEq, Repr

/-- One API call with its arguments, as written at the call site. -/
inductive Call where
  | GetSysColorBrush (nIndex : Int)
  | LoadCursor (hInstance : Nat) (lpCursorName : Nat)
  | RegisterClassW (wc : WNDCLASSW)
  | CreateWindowW (lpClassName : Option WStr) (lpWindowName : Option WStr) (dwStyle : Nat)
      (x y nWidth nHeight : Int) (hWndParent : HWND) (hMenu hInstance lpParam : Nat)
  | GetMessage (hWnd : HWND) (wMsgFilterMin wMsgFilterMax : Nat)
  | TranslateMessage (m : MSG)
  | DispatchMessage (m : MSG)
  | SendMessageW (hWnd : HWND) (msg wParam : Nat) (lParam : LPARAM)
  | PostQuitMessage (nExitCode : Int)
  | DefWindowProcW (hWnd : HWND) (msg wParam : Nat) (lParam : LPARAM)
  deriving DecidableEq, Repr

/-- A trace entry: which program function made which call. -/
structure Event where
  caller : Fn
  call : Call
  deriving DecidableEq, Repr

/-- Modelled from the spec: the List Control of section 3, "ordered sequence of string
items (maintained in sorted order by the control itself whenever the sort style flag is
set), and a single currently-highlighted index". The control is platform code. -/
structure ListBox where
  style : Nat
  items : List WStr
  curSel : Option Nat
  deriving DecidableEq, Repr

/-- Program global, platform objects, platform choices and the call trace. -/
structure World where
  /-- the file-scope variable `HWND hList` -/
  hList : HWND := 0
  /-- window classes registered so far -/
  classes : List WNDCLASSW := []
  /-- windows of registered classes, with the procedure of their class -/
  windows : List (HWND × WNDPROC) := []
  /-- list-box controls, by handle -/
  boxes : List (HWND × ListBox) := []
  /-- exit code of a pending quit request -/
  quit : Option Nat := none
  /-- results of the coming `GetSysColorBrush` and `LoadCursor` calls -/
  resources : List Nat := []
  /-- results of the coming `RegisterClassW` calls (`0` is failure) -/
  atoms : List Nat := []
  /-- results of the coming `CreateWindowW` calls (`0` is failure) -/
  handles : List HWND := []
  /-- results of the coming `DefWindowProcW` calls -/
  defResults : List Int := []
  /-- API calls made so far, oldest first -/
  trace : List Event := []
  deriving DecidableEq, Repr

/-! ## Platform constants

Header values of `windows.h` and `commctrl.h`; the headers are not part of the
repository. -/

/-- Modelled from the spec: header constant `WM_CREATE`, the creation notification. -/
def WM_CREATE : Nat := 0x0001
/-- Modelled from the spec: header constant `WM_DESTROY`, the destroy notification. -/
def WM_DESTROY : Nat := 0x0002
/-- Modelled from the spec: header constant `WM_QUIT`, the termination message. -/
def WM_QUIT : Nat := 0x0012
/-- Modelled from the spec: header constant `LB_ADDSTRING`, the insertion call. -/
def LB_ADDSTRING : Nat := 0x0180
/-- Modelled from the spec: header constant `LB_SETCURSEL`, the index-based select call. -/
def LB_SETCURSEL : Nat := 0x0186
/-- Modelled from the spec: header constant `LB_ERR`. -/
def LB_ERR : Int := -1
/-- Modelled from the spec: header constant `WS_CHILD`, child-window behaviour. -/
def WS_CHILD : Nat := 0x40000000
/-- Modelled from the spec: header constant `WS_VISIBLE`, visibility. -/
def WS_VISIBLE : Nat := 0x10000000
/-- Modelled from the spec: header constant `WS_OVERLAPPEDWINDOW`, the standard
overlapped-window decorations. -/
def WS_OVERLAPPEDWINDOW : Nat := 0x00CF0000
/-- Modelled from the spec: header constant `LBS_SORT`, the sort-on-insert style. -/
def LBS_SORT : Nat := 0x0002
/-- Modelled from the spec: header constant `COLOR_3DFACE`. -/
def COLOR_3DFACE : Int := 15
/-- Modelled from the spec: header constant `IDC_ARROW` (an integer resource). -/
def IDC_ARROW : Nat := 32512
/-- Modelled from the spec: header constant `WC_LISTBOXW`, the list-box class name. -/
def WC_LISTBOXW : WStr := L "ListBox"

/-- The source line `#define IDC_LIST 1`. -/
def IDC_LIST : Nat := 1

/-- Modelled from the spec: the all-ones `WPARAM` that `-1` converts to (64-bit build,
as in the cross-compilation notes of the source). -/
def WPARAM_MINUS_ONE : Nat := 2 ^ 64 - 1

/-! ## Platform behaviour -/

/-- Append one call to the trace. -/
def World.log (w : World) (caller : Fn) (c : Call) : World :=
  { w with trace := w.trace ++ [⟨caller, c⟩] }

/-- The list box with handle `h`, if any; `NULL` names none. -/
def findBox (h : HWND) : List (HWND × ListBox) → Option ListBox
  | [] => none
  | (k, lb) :: rest => if h ≠ 0 ∧ k = h then some lb else findBox h rest

/-- Replace the list box with handle `h` (the one `findBox` finds). -/
def setBox (h : HWND) (new : ListBox) : List (HWND × ListBox) → List (HWND × ListBox)
  | [] => []
  | (k, lb) :: rest =>
    if h ≠ 0 ∧ k = h then (k, new) :: rest else (k, lb) :: setBox h new rest

/-- The procedure of window `h`, if `h` is a window of a registered class. -/
def findProc (h : HWND) : List (HWND × WNDPROC) → Option WNDPROC
  | [] => none
  | (k, p) :: rest => if h ≠ 0 ∧ k = h then some p else findProc h rest

/-- The registered class named `name`, if any. -/
def findClass (name : WStr) : List WNDCLASSW → Option WNDCLASSW
  | [] => none
  | wc :: rest => if wc.lpszClassName = some name then some wc else findClass name rest

/-- Modelled from the spec: "Sort-on-insert style: a control configuration causing every
inserted item to be placed so the visible sequence remains sorted, without explicit
re-sort calls". The new item goes in front of the first item it does not exceed under
the control's ordering `le`. -/
def lbInsert (le : WStr → WStr → Bool) (s : WStr) : List WStr → List WStr
  | [] => [s]
  | x :: xs => if le s x then s :: x :: xs else x :: lbInsert le s xs

/-- Modelled from the spec: the position at which `lbInsert` places the new item (the
result of the insertion call). -/
def lbIndex (le : WStr → WStr → Bool) (s : WStr) : List WStr → Nat
  | [] => 0
  | x :: xs => if le s x then 0 else lbIndex le s xs + 1

/-- Modelled from the spec: the list control's reaction to a message. An insertion
places the string by `lbInsert` when the control has the sort style and at the end
otherwise; the select call sets the highlighted index when it names an item, clears it
for `-1`, and fails otherwise. Other messages leave items and selection alone. -/
def ListBox.handle (le : WStr → WStr → Bool) (lb : ListBox) (msg wParam : Nat)
    (lParam : LPARAM) : Int × ListBox :=
  if msg = LB_ADDSTRING then
    match lParam with
    | LPARAM.wstr s =>
      if lb.style &&& LBS_SORT ≠ 0 then
        (Int.ofNat (lbIndex le s lb.items), { lb with items := lbInsert le s lb.items })
      else
        (Int.ofNat lb.items.length, { lb with items := lb.items ++ [s] })
    | LPARAM.int _ => (LB_ERR, lb)
  else if msg = LB_SETCURSEL then
    if wParam < lb.items.length then (Int.ofNat wParam, { lb with curSel := some wParam })
    else if wParam = WPARAM_MINUS_ONE then (LB_ERR, { lb with curSel := none })
    else (LB_ERR, lb)
  else (0, lb)

/-- Modelled from the spec: `GetSysColorBrush`; the brush handle is the platform's choice. -/
def GetSysColorBrush (caller : Fn) (nIndex : Int) (w : World) : Nat × World :=
  let w := w.log caller (Call.GetSysColorBrush nIndex)
  (w.resources.headD 0, { w with resources := w.resources.tail })

/-- Modelled from the spec: `LoadCursor`; the cursor handle is the platform's choice. -/
def LoadCursor (caller : Fn) (hInstance lpCursorName : Nat) (w : World) : Nat × World :=
  let w := w.log caller (Call.LoadCursor hInstance lpCursorName)
  (w.resources.headD 0, { w with resources := w.resources.tail })

/-- Modelled from the spec: "register exactly one window class bound to a
message-handling callback". The atom is the platform's choice; `0` is
`ClassRegistrationFailure` and registers nothing. -/
def RegisterClassW (caller : Fn) (wc : WNDCLASSW) (w : World) : Nat × World :=
  let w := w.log caller (Call.RegisterClassW wc)
  let atom := w.atoms.headD 0
  let w := { w with atoms := w.atoms.tail }
  if atom = 0 then (0, w) else (atom, { w with classes := wc :: w.classes })

/-- Modelled from the spec: window creation as the caller sees it. A window of the
list-box class is a fresh, empty List Control with the requested style; a window of a
registered class gets the procedure of that class; an unknown class fails. The handle
is the platform's choice, `0` being `WindowCreationFailure`, which creates nothing. -/
def CreateWindowW (caller : Fn) (lpClassName : WStr) (lpWindowName : Option WStr)
    (dwStyle : Nat) (x y nWidth nHeight : Int) (hWndParent : HWND)
    (hMenu hInstance lpParam : Nat) (w : World) : HWND × World :=
  let w := w.log caller (Call.CreateWindowW (some lpClassName) lpWindowName dwStyle
    x y nWidth nHeight hWndParent hMenu hInstance lpParam)
  if lpClassName = WC_LISTBOXW then
    let h := w.handles.headD 0
    let w := { w with handles := w.handles.tail }
    if h = 0 then (0, w)
    else (h, { w with boxes := (h, { style := dwStyle, items := [], curSel := none }) :: w.boxes })
  else
    match findClass lpClassName w.classes with
    | none => (0, w)
    | some wc =>
      let h := w.handles.headD 0
      let w := { w with handles := w.handles.tail }
      if h = 0 then (0, w)
      else (h, { w with windows := (h, wc.lpfnWndProc) :: w.windows })

/-- Modelled from the spec: `SendMessageW` to a List Control runs the control's reaction
and returns its result; sent to anything else (a null or invalid handle included) it
reaches no list control and returns `0`. -/
def SendMessageW (le : WStr → WStr → Bool) (caller : Fn) (hWnd : HWND) (msg wParam : Nat)
    (lParam : LPARAM) (w : World) : Int × World :=
  let w := w.log caller (Call.SendMessageW hWnd msg wParam lParam)
  match findBox hWnd w.boxes with
  | none => (0, w)
  | some lb =>
    let r := lb.handle le msg wParam lParam
    (r.1, { w with boxes := setBox hWnd r.2 w.boxes })

/-- Modelled from the spec: "a quit message is posted carrying exit code"; the request
stays pending with the exit code converted to `WPARAM`. -/
def PostQuitMessage (caller : Fn) (nExitCode : Int) (w : World) : World :=
  let w := w.log caller (Call.PostQuitMessage nExitCode)
  { w with quit := some (nExitCode % 2 ^ 64).toNat }

/-- Modelled from the spec: the default window procedure; its result is the platform's
choice. -/
def DefWindowProcW (caller : Fn) (hWnd : HWND) (msg wParam : Nat) (lParam : LPARAM)
    (w : World) : Int × World :=
  let w := w.log caller (Call.DefWindowProcW hWnd msg wParam lParam)
  (w.defResults.headD 0, { w with defResults := w.defResults.tail })

/-! ## The program: `CreateControl` and `WndProc` -/

/-- Source `CreateControl` (lines 72-87). -/
def CreateControl (le : WStr → WStr → Bool) (hwnd : HWND) (w : World) : World :=
  let (h, w) := CreateWindowW Fn.CreateControl WC_LISTBOXW none
    (WS_CHILD ||| WS_VISIBLE ||| LBS_SORT) 10 10 200 150 hwnd IDC_LIST 0 0 w
  let w := { w with hList := h }
  let w := (SendMessageW le Fn.CreateControl w.hList LB_ADDSTRING 0 (LPARAM.wstr (L "Blue")) w).2
  let w := (SendMessageW le Fn.CreateControl w.hList LB_ADDSTRING 0 (LPARAM.wstr (L "Red")) w).2
  let w := (SendMessageW le Fn.CreateControl w.hList LB_ADDSTRING 0 (LPARAM.wstr (L "Green")) w).2
  let w := (SendMessageW le Fn.CreateControl w.hList LB_ADDSTRING 0 (LPARAM.wstr (L "Yellow")) w).2
  let w := (SendMessageW le Fn.CreateControl w.hList LB_ADDSTRING 0 (LPARAM.wstr (L "Brown")) w).2
  let w := (SendMessageW le Fn.CreateControl w.hList LB_ADDSTRING 0 (LPARAM.wstr (L "?????")) w).2
  let w := (SendMessageW le Fn.CreateControl w.hList LB_SETCURSEL 2 (LPARAM.int 0) w).2
  w

/-- Source `WndProc` (lines 52-70): the `switch`, then the default procedure. -/
def WndProc (le : WStr → WStr → Bool) (hwnd : HWND) (msg wParam : Nat) (lParam : LPARAM)
    (w : World) : Int × World :=
  let w :=
    if msg = WM_CREATE then CreateControl le hwnd w
    else if msg = WM_DESTROY then PostQuitMessage Fn.WndProc 0 w
    else w
  DefWindowProcW Fn.WndProc hwnd msg wParam lParam w

/-! ## Platform behaviour: message delivery -/

/-- Modelled from the spec: "invokes the callback synchronously for each message". A
message for a window whose class procedure is `WndProc` runs `WndProc`; a message for
any other handle runs no program code. -/
def windowProc (le : WStr → WStr → Bool) (hwnd : HWND) (msg wParam : Nat) (lParam : LPARAM)
    (w : World) : Int × World :=
  match findProc hwnd w.windows with
  | some WNDPROC.WndProc => WndProc le hwnd msg wParam lParam w
  | _ => (0, w)

/-- Modelled from the spec: creation of a window of a registered class, with its
"creation notification": when the window has been created, the creation message is
delivered to its procedure before the creating call returns. -/
def CreateWindowW_notify (le : WStr → WStr → Bool) (caller : Fn) (lpClassName : WStr)
    (lpWindowName : Option WStr) (dwStyle : Nat) (x y nWidth nHeight : Int)
    (hWndParent : HWND) (hMenu hInstance lpParam : Nat) (w : World) : HWND × World :=
  let (h, w) := CreateWindowW caller lpClassName lpWindowName dwStyle x y nWidth nHeight
    hWndParent hMenu hInstance lpParam w
  (h, (windowProc le h WM_CREATE 0 (LPARAM.int 0) w).2)

/-- Modelled from the spec: the quit message the platform hands out for a pending quit
request with exit code `c`. -/
def quitMsg (c : Nat) : MSG := { hwnd := 0, message := WM_QUIT, wParam := c, lParam := LPARAM.int 0 }

/-- Modelled from the spec: message retrieval. `posted` is the next message in the
queue, if there is one. A retrieved message other than the quit message gives a nonzero
result, the quit message gives `0`; with an empty queue a pending quit request yields
its quit message, and without one the call never returns (`none`). The error result
`-1` belongs to an invalid window filter or buffer, which the one call site (a null
filter, the local `msg`) excludes. -/
def GetMessage (caller : Fn) (posted : Option MSG) (hWnd : HWND)
    (wMsgFilterMin wMsgFilterMax : Nat) (w : World) : Option (Int × MSG) × World :=
  let w := w.log caller (Call.GetMessage hWnd wMsgFilterMin wMsgFilterMax)
  match posted with
  | some m => (some (if m.message = WM_QUIT then 0 else 1, m), w)
  | none =>
    match w.quit with
    | some c => (some (0, quitMsg c), w)
    | none => (none, w)

/-- Modelled from the spec: `TranslateMessage` has no effect the program observes. -/
def TranslateMessage (caller : Fn) (m : MSG) (w : World) : Int × World :=
  (0, w.log caller (Call.TranslateMessage m))

/-- Modelled from the spec: `DispatchMessage` delivers the message to the procedure of
its target window and returns what the procedure returns. -/
def DispatchMessage (le : WStr → WStr → Bool) (caller : Fn) (m : MSG) (w : World) :
    Int × World :=
  let w := w.log caller (Call.DispatchMessage m)
  windowProc le m.hwnd m.message m.wParam m.lParam w

/-! ## The program: `WinMain` -/

/-- The conversion `(int) msg.wParam`: the low 32 bits, read as a signed integer. -/
def toInt (wParam : Nat) : Int :=
  let r := wParam % 2 ^ 32
  if r < 2 ^ 31 then Int.ofNat r else Int.ofNat r - 2 ^ 32

/-- Source `WinMain`, lines 42-48: the `while (GetMessage(...))` loop and the `return`.
`script` is the sequence of messages the queue will hold, in order. The result is the
value `WinMain` returns, or `none` when `GetMessage` never returns. Once the script is
used up `GetMessage` can only return for the quit message, with result `0`
(`GetMessage_empty_queue`), so that case leaves the loop without a test. -/
def messageLoop (le : WStr → WStr → Bool) : List MSG → World → Option Int × World
  | [], w =>
    match GetMessage Fn.WinMain none 0 0 0 w with
    | (some (_, msg), w) => (some (toInt msg.wParam), w)
    | (none, w) => (none, w)
  | m :: rest, w =>
    match GetMessage Fn.WinMain (some m) 0 0 0 w with
    | (some (ret, msg), w) =>
      if ret ≠ 0 then
        let w := (TranslateMessage Fn.WinMain msg w).2
        let w := (DispatchMessage le Fn.WinMain msg w).2
        messageLoop le rest w
      else (some (toInt msg.wParam), w)
    | (none, w) => (none, w)

/-- The window class `wc` that `WinMain` fills in (lines 30-35). -/
def mainClass (hInstance brush cursor : Nat) : WNDCLASSW :=
  { lpszClassName := some (L "SimpleListBox")
    hInstance := hInstance
    hbrBackground := brush
    lpfnWndProc := WNDPROC.WndProc
    hCursor := cursor }

set_option linter.unusedVariables false in
/-- Source `WinMain` (lines 27-49). The class name passed to `CreateWindowW` is
`wc.lpszClassName`, set four lines earlier. -/
def WinMain (le : WStr → WStr → Bool) (hInstance hPrevInstance : Nat) (pCmdLine : List Nat)
    (nCmdShow : Int) (script : List MSG) (w : World) : Option Int × World :=
  let (brush, w) := GetSysColorBrush Fn.WinMain COLOR_3DFACE w
  let (cursor, w) := LoadCursor Fn.WinMain 0 IDC_ARROW w
  let wc := mainClass hInstance brush cursor
  let w := (RegisterClassW Fn.WinMain wc w).2
  let w := (CreateWindowW_notify le Fn.WinMain (L "SimpleListBox")
    (some (L "Simple List Box (native compiled in Geany+GCC)"))
    (WS_OVERLAPPEDWINDOW ||| WS_VISIBLE) 100 100 350 200 0 0 hInstance 0 w).2
  messageLoop le script w

/-! ## Observations used by the statements -/

/-- Code-unit ordering of wide strings: lexicographic comparison of the code units,
a proper beginning coming first. -/
def wstrLe : WStr → WStr → Bool
  | [], _ => true
  | _ :: _, [] => false
  | a :: as, b :: bs => if a < b then true else if b < a then false else wstrLe as bs

/-- The six configured strings, in the order `CreateControl` inserts them. -/
def configured : List WStr :=
  [L "Blue", L "Red", L "Green", L "Yellow", L "Brown", L "?????"]

/-- The item sequence of the list control that `hList` refers to. -/
def World.listItems (w : World) : Option (List WStr) :=
  (findBox w.hList w.boxes).map ListBox.items

/-- The highlighted index of the list control that `hList` refers to. -/
def World.selection (w : World) : Option Nat :=
  (findBox w.hList w.boxes).bind ListBox.curSel

/-- The highlighted item of the list control that `hList` refers to. -/
def World.highlighted (w : World) : Option WStr :=
  (findBox w.hList w.boxes).bind fun lb => lb.curSel.bind fun i => lb.items[i]?

/-- The calls of a trace that `f` made itself. -/
def ownCalls (f : Fn) (t : List Event) : List Call :=
  (t.filter fun e => e.caller = f).map Event.call

/-- The items of a sort-style control after the strings of `l` have been inserted in
order into the item sequence `acc`. -/
def insertAll (le : WStr → WStr → Bool) (l : List WStr) (acc : List WStr) : List WStr :=
  l.foldl (fun items s => lbInsert le s items) acc

/-- The relation a Boolean ordering decides. -/
def leRel (le : WStr → WStr → Bool) : WStr → WStr → Prop := fun a b => le a b = true

instance leRel.decidable (le : WStr → WStr → Bool) : DecidableRel (leRel le) :=
  fun a b => inferInstanceAs (Decidable (le a b = true))

/-- Every control with the sort style holds a sorted item sequence. -/
def SortedBoxes (le : WStr → WStr → Bool) (w : World) : Prop :=
  ∀ p ∈ w.boxes, p.2.style &&& LBS_SORT ≠ 0 → p.2.items.Sorted (leRel le)

/-- The calls `CreateControl` is claimed to make, `h` being the handle the list-box
creation returned. -/
def controlCalls (hwnd h : HWND) : List Call :=
  [ Call.CreateWindowW (some WC_LISTBOXW) none (WS_CHILD ||| WS_VISIBLE ||| LBS_SORT)
      10 10 200 150 hwnd IDC_LIST 0 0,
    Call.SendMessageW h LB_ADDSTRING 0 (LPARAM.wstr (L "Blue")),
    Call.SendMessageW h LB_ADDSTRING 0 (LPARAM.wstr (L "Red")),
    Call.SendMessageW h LB_ADDSTRING 0 (LPARAM.wstr (L "Green")),
    Call.SendMessageW h LB_ADDSTRING 0 (LPARAM.wstr (L "Yellow")),
    Call.SendMessageW h LB_ADDSTRING 0 (LPARAM.wstr (L "Brown")),
    Call.SendMessageW h LB_ADDSTRING 0 (LPARAM.wstr (L "?????")),
    Call.SendMessageW h LB_SETCURSEL 2 (LPARAM.int 0) ]

/-- The calls the message loop is claimed to make for a message script: one retrieval
per message, each message other than the quit message translated and dispatched, and
the retrieval that ends or blocks the loop. -/
def loopCalls : List MSG → List Call
  | [] => [Call.GetMessage 0 0 0]
  | m :: rest =>
    if m.message = WM_QUIT then [Call.GetMessage 0 0 0]
    else Call.GetMessage 0 0 0 :: Call.TranslateMessage m :: Call.DispatchMessage m ::
      loopCalls rest

/-- The calls `WinMain` is claimed to make before it enters the message loop. -/
def startupCalls (hInstance brush cursor : Nat) : List Call :=
  [ Call.GetSysColorBrush COLOR_3DFACE,
    Call.LoadCursor 0 IDC_ARROW,
    Call.RegisterClassW (mainClass hInstance brush cursor),
    Call.CreateWindowW (some (L "SimpleListBox"))
      (some (L "Simple List Box (native compiled in Geany+GCC)"))
      (WS_OVERLAPPEDWINDOW ||| WS_VISIBLE) 100 100 350 200 0 0 hInstance 0 ]

/-- The world in which `WinMain` enters its message loop (lines 29-40 of the source). -/
def startup (le : WStr → WStr → Bool) (hInstance : Nat) (w : World) : World :=
  let (brush, w) := GetSysColorBrush Fn.WinMain COLOR_3DFACE w
  let (cursor, w) := LoadCursor Fn.WinMain 0 IDC_ARROW w
  let wc := mainClass hInstance brush cursor
  let w := (RegisterClassW Fn.WinMain wc w).2
  (CreateWindowW_notify le Fn.WinMain (L "SimpleListBox")
    (some (L "Simple List Box (native compiled in Geany+GCC)"))
    (WS_OVERLAPPEDWINDOW ||| WS_VISIBLE) 100 100 350 200 0 0 hInstance 0 w).2

/-- The trace entries one run of `WndProc` is claimed to add, `h` being the handle a
list-box creation would return: the calls of `CreateControl` on the creation
notification, the quit request on the destroy notification, and the default procedure
in every case. -/
def wndProcEvents (hwnd : HWND) (msg wParam : Nat) (lParam : LPARAM) (h : HWND) : List Event :=
  (if msg = WM_CREATE then (controlCalls hwnd h).map (Event.mk Fn.CreateControl)
    else if msg = WM_DESTROY then [⟨Fn.WndProc, Call.PostQuitMessage 0⟩]
    else []) ++ [⟨Fn.WndProc, Call.DefWindowProcW hwnd msg wParam lParam⟩]

/-- One round of the message loop for a retrieved message `m` other than the quit
message: the retrieval, `TranslateMessage` and `DispatchMessage` (lines 42-46). -/
def loopStep (le : WStr → WStr → Bool) (m : MSG) (w : World) : World :=
  (DispatchMessage le Fn.WinMain m
    (TranslateMessage Fn.WinMain m (w.log Fn.WinMain (Call.GetMessage 0 0 0))).2).2

/-- The world after the message loop has retrieved, translated and dispatched every
message of a script that holds no quit message. -/
def dispatchAll (le : WStr → WStr → Bool) (script : List MSG) (w : World) : World :=
  script.foldl (fun v m => loopStep le m v) w

/-! ## Lemmas: the list control -/

theorem lbInsert_length (le : WStr → WStr → Bool) (s : WStr) (l : List WStr) :
    (lbInsert le s l).length = l.length + 1 := by
  induction l with
  | nil => rfl
  | cons x xs ih =>
    by_cases h : le s x = true <;> simp [lbInsert, h, ih]

theorem lbInsert_perm (le : WStr → WStr → Bool) (s : WStr) (l : List WStr) :
    (lbInsert le s l).Perm (s :: l) := by
  induction l with
  | nil => exact List.Perm.refl _
  | cons x xs ih =>
    by_cases h : le s x = true
    · simp [lbInsert, h]
    · simp only [lbInsert, h]
      exact (List.Perm.cons x ih).trans (List.Perm.swap s x xs)

theorem insertAll_perm (le : WStr → WStr → Bool) (l acc : List WStr) :
    (insertAll le l acc).Perm (l ++ acc) := by
  induction l generalizing acc with
  | nil => exact List.Perm.refl _
  | cons s rest ih =>
    have h1 : (insertAll le (s :: rest) acc) = insertAll le rest (lbInsert le s acc) := rfl
    rw [h1]
    refine (ih (lbInsert le s acc)).trans ?_
    refine (List.Perm.append_left rest (lbInsert_perm le s acc)).trans ?_
    exact List.perm_middle

theorem lbInsert_sorted (le : WStr → WStr → Bool)
    (total : ∀ a b, le a b = true ∨ le b a = true)
    (trans : ∀ a b c, le a b = true → le b c = true → le a c = true)
    (s : WStr) (l : List WStr) (hl : l.Sorted (leRel le)) :
    (lbInsert le s l).Sorted (leRel le) := by
  induction l with
  | nil => simp [lbInsert]
  | cons x xs ih =>
    have hx : ∀ y ∈ xs, le x y = true := fun y hy => List.rel_of_sorted_cons hl y hy
    by_cases h : le s x = true
    · simp only [lbInsert, h, if_true]
      refine List.sorted_cons.mpr ⟨?_, hl⟩
      intro y hy
      rcases List.mem_cons.mp hy with rfl | hy
      · exact h
      · exact trans s x y h (hx y hy)
    · simp only [lbInsert, h]
      refine List.sorted_cons.mpr ⟨?_, ih hl.of_cons⟩
      intro y hy
      rcases List.mem_cons.mp ((lbInsert_perm le s xs).mem_iff.mp hy) with rfl | hy
      · rcases total y x with h1 | h1
        · exact absurd h1 h
        · exact h1
      · exact hx y hy

theorem insertAll_sorted (le : WStr → WStr → Bool)
    (total : ∀ a b, le a b = true ∨ le b a = true)
    (trans : ∀ a b c, le a b = true → le b c = true → le a c = true)
    (l acc : List WStr) (hacc : acc.Sorted (leRel le)) :
    (insertAll le l acc).Sorted (leRel le) := by
  induction l generalizing acc with
  | nil => exact hacc
  | cons s rest ih => exact ih (lbInsert le s acc) (lbInsert_sorted le total trans s acc hacc)

theorem wstrLe_total (a b : WStr) : wstrLe a b = true ∨ wstrLe b a = true := by
  induction a generalizing b with
  | nil => left; cases b <;> rfl
  | cons x xs ih =>
    cases b with
    | nil => right; rfl
    | cons y ys =>
      rcases Nat.lt_trichotomy x y with h | h | h
      · left; simp [wstrLe, h]
      · subst h
        rcases ih ys with h1 | h1
        · left; simp [wstrLe, h1]
        · right; simp [wstrLe, h1]
      · right; simp [wstrLe, h]

theorem wstrLe_trans (a b c : WStr) (hab : wstrLe a b = true) (hbc : wstrLe b c = true) :
    wstrLe a c = true := by
  induction a generalizing b c with
  | nil => cases c <;> rfl
  | cons x xs ih =>
    cases b with
    | nil => simp [wstrLe] at hab
    | cons y ys =>
      cases c with
      | nil => simp [wstrLe] at hbc
      | cons z zs =>
        simp only [wstrLe] at hab hbc ⊢
        by_cases hxy : x < y
        · by_cases hyz : y < z
          · simp [Nat.lt_trans hxy hyz]
          · by_cases hzy : z < y
            · simp [hyz, hzy] at hbc
            · have : y = z := by omega
              subst this
              simp [hxy]
        · by_cases hyx : y < x
          · simp [hxy, hyx] at hab
          · have hxy2 : x = y := by omega
            subst hxy2
            by_cases hxz : x < z
            · simp [hxz]
            · by_cases hzx : z < x
              · simp [hxz, hzx] at hbc
              · simp only [hxy, hyx, hxz, hzx, if_false] at hab hbc ⊢
                simpa using ih ys zs (by simpa using hab) (by simpa using hbc)

theorem wstrLe_antisymm (a b : WStr) (hab : wstrLe a b = true) (hba : wstrLe b a = true) :
    a = b := by
  induction a generalizing b with
  | nil =>
    cases b with
    | nil => rfl
    | cons y ys => simp [wstrLe] at hba
  | cons x xs ih =>
    cases b with
    | nil => simp [wstrLe] at hab
    | cons y ys =>
      simp only [wstrLe] at hab hba
      by_cases hxy : x < y
      · have hyx : ¬ y < x := by omega
        simp [hxy, hyx] at hba
      · by_cases hyx : y < x
        · simp [hxy, hyx] at hab
        · have : x = y := by omega
          subst this
          simp only [hxy, if_false] at hab hba
          rw [ih ys (by simpa using hab) (by simpa using hba)]

/-! ## Lemmas: API calls and `CreateControl` -/

theorem sortStyle_of_CreateControl : (WS_CHILD ||| WS_VISIBLE ||| LBS_SORT) &&& LBS_SORT ≠ 0 := by
  decide

theorem findBox_null (bs : List (HWND × ListBox)) : findBox 0 bs = none := by
  induction bs with
  | nil => rfl
  | cons b bs ih => obtain ⟨k, lb⟩ := b; simp [findBox, ih]

theorem CreateWindowW_listbox (caller : Fn) (title : Option WStr) (style : Nat)
    (x y nw nh : Int) (parent : HWND) (menu inst param : Nat) (w : World) :
    CreateWindowW caller WC_LISTBOXW title style x y nw nh parent menu inst param w =
      if w.handles.headD 0 = 0 then
        (0, { w with
          handles := w.handles.tail
          trace := w.trace ++ [⟨caller, Call.CreateWindowW (some WC_LISTBOXW) title style
            x y nw nh parent menu inst param⟩] })
      else
        (w.handles.headD 0, { w with
          handles := w.handles.tail
          boxes := (w.handles.headD 0, { style := style, items := [], curSel := none }) :: w.boxes
          trace := w.trace ++ [⟨caller, Call.CreateWindowW (some WC_LISTBOXW) title style
            x y nw nh parent menu inst param⟩] }) := by
  simp only [CreateWindowW, World.log, if_true]

theorem handle_addstring (le : WStr → WStr → Bool) (lb : ListBox) (wParam : Nat) (s : WStr)
    (hs : lb.style &&& LBS_SORT ≠ 0) :
    lb.handle le LB_ADDSTRING wParam (LPARAM.wstr s) =
      (Int.ofNat (lbIndex le s lb.items), { lb with items := lbInsert le s lb.items }) := by
  simp only [ListBox.handle, if_true, hs, ne_eq, not_false_eq_true]

theorem handle_setcursel (le : WStr → WStr → Bool) (lb : ListBox) (wParam : Nat) (lp : LPARAM)
    (hi : wParam < lb.items.length) :
    lb.handle le LB_SETCURSEL wParam lp =
      (Int.ofNat wParam, { lb with curSel := some wParam }) := by
  have : ¬ (LB_SETCURSEL = LB_ADDSTRING) := by decide
  simp only [ListBox.handle, this, if_false, if_true, hi]

theorem SendMessageW_box (le : WStr → WStr → Bool) (caller : Fn) (h : HWND) (msg wParam : Nat)
    (lParam : LPARAM) (w : World) (lb : ListBox) (rest : List (HWND × ListBox))
    (hb : w.boxes = (h, lb) :: rest) (hh : h ≠ 0) :
    SendMessageW le caller h msg wParam lParam w =
      ((lb.handle le msg wParam lParam).1,
        { w with
          boxes := (h, (lb.handle le msg wParam lParam).2) :: rest
          trace := w.trace ++ [⟨caller, Call.SendMessageW h msg wParam lParam⟩] }) := by
  simp [SendMessageW, World.log, hb, findBox, setBox, hh]

theorem SendMessageW_null (le : WStr → WStr → Bool) (caller : Fn) (msg wParam : Nat)
    (lParam : LPARAM) (w : World) :
    SendMessageW le caller 0 msg wParam lParam w =
      (0, { w with trace := w.trace ++ [⟨caller, Call.SendMessageW 0 msg wParam lParam⟩] }) := by
  simp [SendMessageW, World.log, findBox_null]

theorem CreateControl_created (le : WStr → WStr → Bool) (hwnd : HWND) (w : World)
    (hh : w.handles.headD 0 ≠ 0) :
    CreateControl le hwnd w =
      { w with
        hList := w.handles.headD 0
        handles := w.handles.tail
        boxes := (w.handles.headD 0,
          { style := WS_CHILD ||| WS_VISIBLE ||| LBS_SORT
            items := insertAll le configured []
            curSel := some 2 }) :: w.boxes
        trace := w.trace ++
          (controlCalls hwnd (w.handles.headD 0)).map (Event.mk Fn.CreateControl) } := by
  unfold CreateControl
  rw [CreateWindowW_listbox]
  simp only [hh, if_false]
  rw [SendMessageW_box le _ _ _ _ _ _ _ _ rfl hh,
    handle_addstring le _ _ _ sortStyle_of_CreateControl]
  simp only []
  rw [SendMessageW_box le _ _ _ _ _ _ _ _ rfl hh,
    handle_addstring le _ _ _ sortStyle_of_CreateControl]
  simp only []
  rw [SendMessageW_box le _ _ _ _ _ _ _ _ rfl hh,
    handle_addstring le _ _ _ sortStyle_of_CreateControl]
  simp only []
  rw [SendMessageW_box le _ _ _ _ _ _ _ _ rfl hh,
    handle_addstring le _ _ _ sortStyle_of_CreateControl]
  simp only []
  rw [SendMessageW_box le _ _ _ _ _ _ _ _ rfl hh,
    handle_addstring le _ _ _ sortStyle_of_CreateControl]
  simp only []
  rw [SendMessageW_box le _ _ _ _ _ _ _ _ rfl hh,
    handle_addstring le _ _ _ sortStyle_of_CreateControl]
  simp only []
  rw [SendMessageW_box le _ _ _ _ _ _ _ _ rfl hh,
    handle_setcursel le _ _ _ (by simp only [lbInsert_length]; omega)]
  simp only [controlCalls, insertAll, configured, List.foldl, List.map, List.append_assoc,
    List.cons_append, List.nil_append]

theorem CreateControl_failed (le : WStr → WStr → Bool) (hwnd : HWND) (w : World)
    (hh : w.handles.headD 0 = 0) :
    CreateControl le hwnd w =
      { w with
        hList := 0
        handles := w.handles.tail
        trace := w.trace ++ (controlCalls hwnd 0).map (Event.mk Fn.CreateControl) } := by
  unfold CreateControl
  rw [CreateWindowW_listbox]
  simp only [hh, if_true, SendMessageW_null]
  simp only [controlCalls, List.map, List.append_assoc, List.cons_append, List.nil_append]

theorem CreateControl_listItems (le : WStr → WStr → Bool) (hwnd : HWND) (w : World)
    (hh : w.handles.headD 0 ≠ 0) :
    (CreateControl le hwnd w).listItems = some (insertAll le configured []) := by
  rw [CreateControl_created le hwnd w hh]
  generalize w.handles.headD 0 = h at hh
  simp [World.listItems, findBox, hh]

theorem CreateControl_highlighted (le : WStr → WStr → Bool) (hwnd : HWND) (w : World)
    (hh : w.handles.headD 0 ≠ 0) :
    (CreateControl le hwnd w).highlighted = (insertAll le configured [])[2]? := by
  rw [CreateControl_created le hwnd w hh]
  generalize w.handles.headD 0 = h at hh
  simp [World.highlighted, findBox, hh]

theorem CreateControl_trace (le : WStr → WStr → Bool) (hwnd : HWND) (w : World) :
    (CreateControl le hwnd w).hList = w.handles.headD 0 ∧
    (CreateControl le hwnd w).trace = w.trace ++
      (controlCalls hwnd (w.handles.headD 0)).map (Event.mk Fn.CreateControl) := by
  by_cases hh : w.handles.headD 0 = 0
  · rw [CreateControl_failed le hwnd w hh, hh]
    exact ⟨rfl, rfl⟩
  · rw [CreateControl_created le hwnd w hh]
    exact ⟨rfl, rfl⟩

theorem insertAll_configured_lex :
    insertAll wstrLe configured [] =
      [L "?????", L "Blue", L "Brown", L "Green", L "Red", L "Yellow"] := by
  decide

/-! ## Claims about `CreateControl` -/

/-- C2: when the list-box creation succeeds, the items of the control after
`CreateControl` are a permutation of the six configured strings: each of the six occurs,
nothing else occurs and no item is repeated, for every ordering the control may sort
with. -/
theorem CreateControl_items_perm (le : WStr → WStr → Bool) (hwnd : HWND) (w : World)
    (hh : w.handles.headD 0 ≠ 0) :
    ∃ items, (CreateControl le hwnd w).listItems = some items ∧
      items.Perm [L "Blue", L "Red", L "Green", L "Yellow", L "Brown", L "?????"] ∧
      items.Nodup ∧
      ∀ s, s ∈ items ↔ s ∈ [L "Blue", L "Red", L "Green", L "Yellow", L "Brown", L "?????"] := by
  have hp : (insertAll le configured []).Perm configured := by
    simpa using insertAll_perm le configured []
  have hn : configured.Nodup := by decide
  exact ⟨insertAll le configured [], CreateControl_listItems le hwnd w hh, hp,
    hp.nodup_iff.mpr hn, fun s => hp.mem_iff⟩

/-- Witness for C2: a creation that returns handle 7. -/
theorem CreateControl_items_perm_witness :
    ∃ items, (CreateControl wstrLe 5 { handles := [7] }).listItems = some items ∧
      items.Perm [L "Blue", L "Red", L "Green", L "Yellow", L "Brown", L "?????"] ∧
      items.Nodup ∧
      ∀ s, s ∈ items ↔ s ∈ [L "Blue", L "Red", L "Green", L "Yellow", L "Brown", L "?????"] :=
  CreateControl_items_perm wstrLe 5 { handles := [7] } (by decide)

/-- C3: when the list-box creation succeeds and the control sorts by code units, the
displayed sequence after `CreateControl` is "?????", "Blue", "Brown", "Green", "Red",
"Yellow"; this is the library sort of the six inserted strings, and the only sorted
arrangement of them. -/
theorem CreateControl_displays_sorted (hwnd : HWND) (w : World)
    (hh : w.handles.headD 0 ≠ 0) :
    (CreateControl wstrLe hwnd w).listItems =
        some [L "?????", L "Blue", L "Brown", L "Green", L "Red", L "Yellow"] ∧
      [L "?????", L "Blue", L "Brown", L "Green", L "Red", L "Yellow"] =
        List.insertionSort (leRel wstrLe)
          [L "Blue", L "Red", L "Green", L "Yellow", L "Brown", L "?????"] ∧
      ∀ l : List WStr,
        l.Perm [L "Blue", L "Red", L "Green", L "Yellow", L "Brown", L "?????"] →
        l.Sorted (leRel wstrLe) →
        l = [L "?????", L "Blue", L "Brown", L "Green", L "Red", L "Yellow"] := by
  refine ⟨?_, by decide, ?_⟩
  · rw [CreateControl_listItems wstrLe hwnd w hh, insertAll_configured_lex]
  · intro l hp hs
    haveI : IsAntisymm WStr (leRel wstrLe) := ⟨wstrLe_antisymm⟩
    refine List.eq_of_perm_of_sorted (hp.trans ?_) hs (by decide)
    have h := insertAll_perm wstrLe configured []
    rw [insertAll_configured_lex] at h
    simpa using h.symm

/-- Witness for C3: a creation that returns handle 7. -/
theorem CreateControl_displays_sorted_witness :
    (CreateControl wstrLe 5 { handles := [7] }).listItems =
        some [L "?????", L "Blue", L "Brown", L "Green", L "Red", L "Yellow"] :=
  (CreateControl_displays_sorted 5 { handles := [7] } (by decide)).1

/-- C5: when the list-box creation succeeds, the selection index after `CreateControl`
is 2 and the highlighted item is the element at index 2 of the control's final item
sequence, for every ordering; under code-unit ordering that element is "Brown". -/
theorem CreateControl_selects_sorted_index (le : WStr → WStr → Bool) (hwnd : HWND) (w : World)
    (hh : w.handles.headD 0 ≠ 0) :
    (CreateControl le hwnd w).selection = some 2 ∧
      (CreateControl le hwnd w).highlighted =
        (CreateControl le hwnd w).listItems.bind (fun items => items[2]?) ∧
      (CreateControl wstrLe hwnd w).highlighted = some (L "Brown") := by
  refine ⟨?_, ?_, ?_⟩
  · rw [CreateControl_created le hwnd w hh]
    generalize w.handles.headD 0 = h at hh
    simp [World.selection, findBox, hh]
  · rw [CreateControl_highlighted le hwnd w hh, CreateControl_listItems le hwnd w hh]
    rfl
  · rw [CreateControl_highlighted wstrLe hwnd w hh, insertAll_configured_lex]
    rfl

/-- Witness for C5: a creation that returns handle 7. -/
theorem CreateControl_selects_sorted_index_witness :
    (CreateControl wstrLe 5 { handles := [7] }).selection = some 2 ∧
      (CreateControl wstrLe 5 { handles := [7] }).highlighted = some (L "Brown") :=
  ⟨(CreateControl_selects_sorted_index wstrLe 5 { handles := [7] } (by decide)).1,
    (CreateControl_selects_sorted_index wstrLe 5 { handles := [7] } (by decide)).2.2⟩

/-- C6, refuted as stated: with a successful creation and code-unit ordering the
highlighted item after `CreateControl` is not "Green". -/
theorem CreateControl_highlight_not_Green :
    (CreateControl wstrLe 5 { handles := [7] }).highlighted ≠ some (L "Green") := by
  decide

/-- C6 as amended: the select call passes index 2, the position of "Green" in the
insertion order, and the control applies it to its sorted sequence: the highlighted item is
the one at sorted position 2, which under code-unit ordering is "Brown" and not "Green". -/
theorem CreateControl_select_applies_to_sorted (hwnd : HWND) (w : World)
    (hh : w.handles.headD 0 ≠ 0) :
    (CreateControl wstrLe hwnd w).trace.getLast? =
        some ⟨Fn.CreateControl,
          Call.SendMessageW (CreateControl wstrLe hwnd w).hList LB_SETCURSEL 2 (LPARAM.int 0)⟩ ∧
      configured[2]? = some (L "Green") ∧
      (CreateControl wstrLe hwnd w).highlighted =
        [L "?????", L "Blue", L "Brown", L "Green", L "Red", L "Yellow"][2]? ∧
      (CreateControl wstrLe hwnd w).highlighted ≠ some (L "Green") := by
  have hl := CreateControl_highlighted wstrLe hwnd w hh
  rw [insertAll_configured_lex] at hl
  refine ⟨?_, by decide, hl, ?_⟩
  · rw [(CreateControl_trace wstrLe hwnd w).2, (CreateControl_trace wstrLe hwnd w).1]
    simp [controlCalls]
  · rw [hl]
    decide

/-- Witness for the amended C6: a creation that returns handle 7. -/
theorem CreateControl_select_applies_to_sorted_witness :
    (CreateControl wstrLe 5 { handles := [7] }).highlighted =
        [L "?????", L "Blue", L "Brown", L "Green", L "Red", L "Yellow"][2]? :=
  (CreateControl_select_applies_to_sorted 5 { handles := [7] } (by decide)).2.2.1

/-- C8: `CreateControl` makes exactly eight calls: the creation of one child list box of
`hwnd` with rectangle (10,10,200,150), identifier 1 and style
`WS_CHILD | WS_VISIBLE | LBS_SORT`, then seven messages to the handle that this creation
returned, which is also what `hList` holds afterwards: the six insertions in source
order, the last string being five question marks, and one select call with index 2.
When the creation succeeds, the one control that comes into being is the one that
received the seven messages: it holds the six inserted strings and selection index 2. -/
theorem CreateControl_calls (le : WStr → WStr → Bool) (hwnd : HWND) (w : World) :
    (CreateWindowW Fn.CreateControl WC_LISTBOXW none (WS_CHILD ||| WS_VISIBLE ||| LBS_SORT)
      10 10 200 150 hwnd 1 0 0 w).1 = w.handles.headD 0 ∧
    (CreateControl le hwnd w).hList =
      (CreateWindowW Fn.CreateControl WC_LISTBOXW none (WS_CHILD ||| WS_VISIBLE ||| LBS_SORT)
        10 10 200 150 hwnd 1 0 0 w).1 ∧
    (CreateControl le hwnd w).trace = w.trace ++
      [ ⟨Fn.CreateControl, Call.CreateWindowW (some WC_LISTBOXW) none
          (WS_CHILD ||| WS_VISIBLE ||| LBS_SORT) 10 10 200 150 hwnd 1 0 0⟩,
        ⟨Fn.CreateControl, Call.SendMessageW (w.handles.headD 0) LB_ADDSTRING 0
          (LPARAM.wstr (L "Blue"))⟩,
        ⟨Fn.CreateControl, Call.SendMessageW (w.handles.headD 0) LB_ADDSTRING 0
          (LPARAM.wstr (L "Red"))⟩,
        ⟨Fn.CreateControl, Call.SendMessageW (w.handles.headD 0) LB_ADDSTRING 0
          (LPARAM.wstr (L "Green"))⟩,
        ⟨Fn.CreateControl, Call.SendMessageW (w.handles.headD 0) LB_ADDSTRING 0
          (LPARAM.wstr (L "Yellow"))⟩,
        ⟨Fn.CreateControl, Call.SendMessageW (w.handles.headD 0) LB_ADDSTRING 0
          (LPARAM.wstr (L "Brown"))⟩,
        ⟨Fn.CreateControl, Call.SendMessageW (w.handles.headD 0) LB_ADDSTRING 0
          (LPARAM.wstr (List.replicate 5 ('?').toNat))⟩,
        ⟨Fn.CreateControl, Call.SendMessageW (w.handles.headD 0) LB_SETCURSEL 2
          (LPARAM.int 0)⟩ ] ∧
    (CreateControl le hwnd w).boxes =
      (if w.handles.headD 0 = 0 then w.boxes
        else (w.handles.headD 0,
          { style := WS_CHILD ||| WS_VISIBLE ||| LBS_SORT
            items := lbInsert le (L "?????") (lbInsert le (L "Brown") (lbInsert le (L "Yellow")
              (lbInsert le (L "Green") (lbInsert le (L "Red") (lbInsert le (L "Blue") [])))))
            curSel := some 2 }) :: w.boxes) ∧
    (CreateControl le hwnd w).boxes.length =
      w.boxes.length + (if w.handles.headD 0 = 0 then 0 else 1) := by
  have hc : (CreateWindowW Fn.CreateControl WC_LISTBOXW none
      (WS_CHILD ||| WS_VISIBLE ||| LBS_SORT) 10 10 200 150 hwnd 1 0 0 w).1 =
      w.handles.headD 0 := by
    rw [CreateWindowW_listbox]
    by_cases hh : w.handles.headD 0 = 0
    · rw [if_pos hh, hh]
    · rw [if_neg hh]
  refine ⟨hc, ?_, ?_, ?_, ?_⟩
  · rw [hc]
    exact (CreateControl_trace le hwnd w).1
  · rw [(CreateControl_trace le hwnd w).2]
    rfl
  · by_cases hh : w.handles.headD 0 = 0
    · rw [CreateControl_failed le hwnd w hh, if_pos hh]
    · rw [CreateControl_created le hwnd w hh, if_neg hh]
      rfl
  · by_cases hh : w.handles.headD 0 = 0
    · rw [CreateControl_failed le hwnd w hh, if_pos hh]
      rfl
    · rw [CreateControl_created le hwnd w hh, if_neg hh]
      rfl

/-! ## Lemmas: frames, traces and conversions -/

theorem WinMain_eq (le : WStr → WStr → Bool) (hInstance hPrevInstance : Nat)
    (pCmdLine : List Nat) (nCmdShow : Int) (script : List MSG) (w : World) :
    WinMain le hInstance hPrevInstance pCmdLine nCmdShow script w =
      messageLoop le script (startup le hInstance w) := rfl

theorem CreateControl_frame (le : WStr → WStr → Bool) (hwnd : HWND) (w : World) :
    (CreateControl le hwnd w).quit = w.quit ∧
    (CreateControl le hwnd w).windows = w.windows ∧
    (CreateControl le hwnd w).classes = w.classes ∧
    (CreateControl le hwnd w).defResults = w.defResults := by
  by_cases hh : w.handles.headD 0 = 0
  · rw [CreateControl_failed le hwnd w hh]
    exact ⟨rfl, rfl, rfl, rfl⟩
  · rw [CreateControl_created le hwnd w hh]
    exact ⟨rfl, rfl, rfl, rfl⟩

theorem ownCalls_append (f : Fn) (t u : List Event) :
    ownCalls f (t ++ u) = ownCalls f t ++ ownCalls f u := by
  simp [ownCalls]

theorem ownCalls_map_other (f g : Fn) (hfg : g ≠ f) (cs : List Call) :
    ownCalls f (cs.map (Event.mk g)) = [] := by
  induction cs with
  | nil => rfl
  | cons c cs ih =>
    simp only [ownCalls, List.map, List.filter, hfg, decide_False] at ih ⊢
    exact ih

theorem ownCalls_map_self (f : Fn) (cs : List Call) :
    ownCalls f (cs.map (Event.mk f)) = cs := by
  induction cs with
  | nil => rfl
  | cons c cs ih =>
    simp only [ownCalls, List.map, List.filter, decide_True] at ih ⊢
    rw [ih]

theorem PostQuitMessage_zero (caller : Fn) (w : World) :
    PostQuitMessage caller 0 w =
      { w with quit := some 0, trace := w.trace ++ [⟨caller, Call.PostQuitMessage 0⟩] } := by
  rfl

theorem toInt_of_lt (p : Nat) (hp : p < 2 ^ 31) : toInt p = Int.ofNat p := by
  have h1 : p % 2 ^ 32 = p := Nat.mod_eq_of_lt (by omega)
  simp only [toInt, h1, hp, if_true]

/-! ## Lemmas: `WndProc` -/

theorem WM_CREATE_ne_WM_DESTROY : WM_CREATE ≠ WM_DESTROY := by decide

theorem WndProc_create (le : WStr → WStr → Bool) (hwnd : HWND) (wParam : Nat) (lParam : LPARAM)
    (w : World) :
    WndProc le hwnd WM_CREATE wParam lParam w =
      DefWindowProcW Fn.WndProc hwnd WM_CREATE wParam lParam (CreateControl le hwnd w) := by
  simp only [WndProc, if_true]

theorem WndProc_destroy (le : WStr → WStr → Bool) (hwnd : HWND) (wParam : Nat) (lParam : LPARAM)
    (w : World) :
    WndProc le hwnd WM_DESTROY wParam lParam w =
      DefWindowProcW Fn.WndProc hwnd WM_DESTROY wParam lParam (PostQuitMessage Fn.WndProc 0 w) := by
  have h : ¬ (WM_DESTROY = WM_CREATE) := by decide
  simp only [WndProc, h, if_false, if_true]

theorem WndProc_other (le : WStr → WStr → Bool) (hwnd : HWND) (msg wParam : Nat)
    (lParam : LPARAM) (w : World) (hc : msg ≠ WM_CREATE) (hd : msg ≠ WM_DESTROY) :
    WndProc le hwnd msg wParam lParam w = DefWindowProcW Fn.WndProc hwnd msg wParam lParam w := by
  simp only [WndProc, hc, hd, if_false]

theorem WndProc_trace (le : WStr → WStr → Bool) (hwnd : HWND) (msg wParam : Nat)
    (lParam : LPARAM) (w : World) :
    (WndProc le hwnd msg wParam lParam w).2.trace =
      w.trace ++ wndProcEvents hwnd msg wParam lParam (w.handles.headD 0) := by
  by_cases hc : msg = WM_CREATE
  · subst hc
    rw [WndProc_create]
    simp only [DefWindowProcW, World.log, (CreateControl_trace le hwnd w).2, wndProcEvents,
      if_true, List.append_assoc]
  · by_cases hd : msg = WM_DESTROY
    · subst hd
      rw [WndProc_destroy, PostQuitMessage_zero]
      simp only [DefWindowProcW, World.log, wndProcEvents, hc, if_false, if_true,
        List.append_assoc]
    · rw [WndProc_other le hwnd msg wParam lParam w hc hd]
      simp only [DefWindowProcW, World.log, wndProcEvents, hc, hd, if_false, List.nil_append]

theorem WndProc_frame (le : WStr → WStr → Bool) (hwnd : HWND) (msg wParam : Nat)
    (lParam : LPARAM) (w : World) :
    (WndProc le hwnd msg wParam lParam w).1 = w.defResults.headD 0 ∧
    (WndProc le hwnd msg wParam lParam w).2.windows = w.windows ∧
    (WndProc le hwnd msg wParam lParam w).2.quit =
      (if msg = WM_DESTROY then some 0 else w.quit) := by
  by_cases hc : msg = WM_CREATE
  · subst hc
    rw [WndProc_create]
    obtain ⟨h1, h2, _, h4⟩ := CreateControl_frame le hwnd w
    simp only [DefWindowProcW, World.log, h1, h2, h4, WM_CREATE_ne_WM_DESTROY, if_false,
      and_self]
  · by_cases hd : msg = WM_DESTROY
    · subst hd
      rw [WndProc_destroy, PostQuitMessage_zero]
      simp only [DefWindowProcW, World.log, if_true, and_self]
    · rw [WndProc_other le hwnd msg wParam lParam w hc hd]
      simp only [DefWindowProcW, World.log, hd, if_false, and_self]

theorem ownCalls_wndProcEvents (hwnd : HWND) (msg wParam : Nat) (lParam : LPARAM) (h : HWND) :
    ownCalls Fn.WinMain (wndProcEvents hwnd msg wParam lParam h) = [] := by
  unfold wndProcEvents
  rw [ownCalls_append]
  have h1 : ownCalls Fn.WinMain [(⟨Fn.WndProc, Call.DefWindowProcW hwnd msg wParam lParam⟩ : Event)]
      = [] := rfl
  rw [h1, List.append_nil]
  by_cases hc : msg = WM_CREATE
  · rw [if_pos hc]
    exact ownCalls_map_other Fn.WinMain Fn.CreateControl (by decide) _
  · rw [if_neg hc]
    by_cases hd : msg = WM_DESTROY
    · rw [if_pos hd]; rfl
    · rw [if_neg hd]; rfl

/-! ## Claims about `WndProc` -/

/-- C10: `WndProc` touches the list control only on `WM_CREATE` (then by the calls of
`CreateControl`) and requests quitting only on `WM_DESTROY`; on every other message it
is the default procedure alone; on every message its result is the result of the
default procedure, called last and with the same four arguments. -/
theorem WndProc_effects (le : WStr → WStr → Bool) (hwnd : HWND) (msg wParam : Nat)
    (lParam : LPARAM) (w : World) :
    (msg ≠ WM_CREATE →
      (WndProc le hwnd msg wParam lParam w).2.hList = w.hList ∧
      (WndProc le hwnd msg wParam lParam w).2.boxes = w.boxes) ∧
    (msg = WM_CREATE →
      (WndProc le hwnd msg wParam lParam w).2.trace =
        w.trace ++ (controlCalls hwnd (w.handles.headD 0)).map (Event.mk Fn.CreateControl) ++
          [⟨Fn.WndProc, Call.DefWindowProcW hwnd msg wParam lParam⟩]) ∧
    (msg ≠ WM_DESTROY →
      (WndProc le hwnd msg wParam lParam w).2.quit = w.quit ∧
      ∀ e ∈ (WndProc le hwnd msg wParam lParam w).2.trace.drop w.trace.length,
        ∀ c, e.call ≠ Call.PostQuitMessage c) ∧
    (msg ≠ WM_CREATE → msg ≠ WM_DESTROY →
      WndProc le hwnd msg wParam lParam w =
        DefWindowProcW Fn.WndProc hwnd msg wParam lParam w) ∧
    (∃ v, v.defResults = w.defResults ∧
      WndProc le hwnd msg wParam lParam w =
        DefWindowProcW Fn.WndProc hwnd msg wParam lParam v) ∧
    (WndProc le hwnd msg wParam lParam w).1 = w.defResults.headD 0 ∧
    (WndProc le hwnd msg wParam lParam w).2.trace.getLast? =
      some ⟨Fn.WndProc, Call.DefWindowProcW hwnd msg wParam lParam⟩ := by
  refine ⟨?_, ?_, ?_, ?_, ?_, (WndProc_frame le hwnd msg wParam lParam w).1, ?_⟩
  · intro hc
    by_cases hd : msg = WM_DESTROY
    · subst hd
      rw [WndProc_destroy, PostQuitMessage_zero]
      exact ⟨rfl, rfl⟩
    · rw [WndProc_other le hwnd msg wParam lParam w hc hd]
      exact ⟨rfl, rfl⟩
  · intro hc
    rw [WndProc_trace, wndProcEvents, if_pos hc, List.append_assoc]
  · intro hd
    refine ⟨?_, ?_⟩
    · rw [(WndProc_frame le hwnd msg wParam lParam w).2.2, if_neg hd]
    · rw [WndProc_trace, List.drop_left]
      intro e he c
      unfold wndProcEvents at he
      rw [if_neg hd] at he
      by_cases hc : msg = WM_CREATE
      · rw [if_pos hc] at he
        simp only [controlCalls, List.map, List.cons_append, List.nil_append, List.mem_cons,
          List.mem_singleton, List.not_mem_nil, or_false] at he
        rcases he with h | h | h | h | h | h | h | h | h <;> rw [h] <;> simp
      · rw [if_neg hc] at he
        simp only [List.nil_append, List.mem_singleton] at he
        rw [he]
        simp
  · exact WndProc_other le hwnd msg wParam lParam w
  · by_cases hc : msg = WM_CREATE
    · subst hc
      exact ⟨CreateControl le hwnd w, (CreateControl_frame le hwnd w).2.2.2, WndProc_create ..⟩
    · by_cases hd : msg = WM_DESTROY
      · subst hd
        exact ⟨PostQuitMessage Fn.WndProc 0 w, rfl, WndProc_destroy ..⟩
      · exact ⟨w, rfl, WndProc_other le hwnd msg wParam lParam w hc hd⟩
  · rw [WndProc_trace, wndProcEvents, ← List.append_assoc, List.getLast?_append]
    rfl

/-- Witness for C10: a paint message (15) leaves control and quit request alone and is
the default procedure alone; the creation notification adds the calls of
`CreateControl` and the default procedure. -/
theorem WndProc_effects_witness :
    ((WndProc wstrLe 5 15 0 (LPARAM.int 0) { handles := [7], defResults := [3] }).2.hList = 0 ∧
      (WndProc wstrLe 5 15 0 (LPARAM.int 0) { handles := [7], defResults := [3] }).2.boxes = []) ∧
    (WndProc wstrLe 5 15 0 (LPARAM.int 0) { handles := [7], defResults := [3] }).2.quit = none ∧
    WndProc wstrLe 5 15 0 (LPARAM.int 0) { handles := [7], defResults := [3] } =
      DefWindowProcW Fn.WndProc 5 15 0 (LPARAM.int 0) { handles := [7], defResults := [3] } ∧
    (WndProc wstrLe 5 15 0 (LPARAM.int 0) { handles := [7], defResults := [3] }).1 = 3 ∧
    (WndProc wstrLe 5 WM_CREATE 0 (LPARAM.int 0) { handles := [7] }).2.trace =
      [] ++ (controlCalls 5 7).map (Event.mk Fn.CreateControl) ++
        [⟨Fn.WndProc, Call.DefWindowProcW 5 WM_CREATE 0 (LPARAM.int 0)⟩] :=
  ⟨(WndProc_effects wstrLe 5 15 0 (LPARAM.int 0) { handles := [7], defResults := [3] }).1
      (by decide),
    ((WndProc_effects wstrLe 5 15 0 (LPARAM.int 0) { handles := [7], defResults := [3] }).2.2.1
      (by decide)).1,
    (WndProc_effects wstrLe 5 15 0 (LPARAM.int 0) { handles := [7], defResults := [3] }).2.2.2.1
      (by decide) (by decide),
    (WndProc_effects wstrLe 5 15 0 (LPARAM.int 0) { handles := [7], defResults := [3] }).2.2.2.2.2.1,
    (WndProc_effects wstrLe 5 WM_CREATE 0 (LPARAM.int 0) { handles := [7] }).2.1 rfl⟩

/-! ## Lemmas: message delivery and the message loop -/

theorem findProc_null (ws : List (HWND × WNDPROC)) : findProc 0 ws = none := by
  induction ws with
  | nil => rfl
  | cons b bs ih => obtain ⟨k, p⟩ := b; simp [findProc, ih]

theorem windowProc_eq (le : WStr → WStr → Bool) (hwnd : HWND) (msg wParam : Nat)
    (lParam : LPARAM) (w : World) :
    windowProc le hwnd msg wParam lParam w =
      if findProc hwnd w.windows = some WNDPROC.WndProc then WndProc le hwnd msg wParam lParam w
      else (0, w) := by
  unfold windowProc
  split
  · next h => rw [if_pos h]
  · next h =>
    rw [if_neg]
    intro hp
    exact h hp

theorem windowProc_frame (le : WStr → WStr → Bool) (hwnd : HWND) (msg wParam : Nat)
    (lParam : LPARAM) (w : World) :
    (windowProc le hwnd msg wParam lParam w).2.windows = w.windows ∧
    (windowProc le hwnd msg wParam lParam w).2.quit =
      (if findProc hwnd w.windows = some WNDPROC.WndProc ∧ msg = WM_DESTROY then some 0
        else w.quit) ∧
    ownCalls Fn.WinMain (windowProc le hwnd msg wParam lParam w).2.trace =
      ownCalls Fn.WinMain w.trace := by
  rw [windowProc_eq]
  by_cases hp : findProc hwnd w.windows = some WNDPROC.WndProc
  · simp only [hp, if_true, true_and]
    refine ⟨(WndProc_frame le hwnd msg wParam lParam w).2.1,
      (WndProc_frame le hwnd msg wParam lParam w).2.2, ?_⟩
    rw [WndProc_trace, ownCalls_append, ownCalls_wndProcEvents, List.append_nil]
  · simp only [hp, if_false, false_and, and_self]

theorem loopStep_frame (le : WStr → WStr → Bool) (m : MSG) (w : World) :
    (loopStep le m w).windows = w.windows ∧
    (loopStep le m w).quit =
      (if findProc m.hwnd w.windows = some WNDPROC.WndProc ∧ m.message = WM_DESTROY then some 0
        else w.quit) ∧
    ownCalls Fn.WinMain (loopStep le m w).trace =
      ownCalls Fn.WinMain w.trace ++
        [Call.GetMessage 0 0 0, Call.TranslateMessage m, Call.DispatchMessage m] := by
  unfold loopStep DispatchMessage TranslateMessage
  obtain ⟨h1, h2, h3⟩ := windowProc_frame le m.hwnd m.message m.wParam m.lParam
    (((w.log Fn.WinMain (Call.GetMessage 0 0 0)).log Fn.WinMain (Call.TranslateMessage m)).log
      Fn.WinMain (Call.DispatchMessage m))
  refine ⟨h1, h2, ?_⟩
  rw [h3]
  simp only [World.log, ownCalls_append, List.append_assoc]
  rfl

theorem GetMessage_empty_queue (caller : Fn) (hWnd : HWND) (lo hi : Nat) (w : World)
    (ret : Int) (msg : MSG) (v : World)
    (hg : GetMessage caller none hWnd lo hi w = (some (ret, msg), v)) :
    ret = 0 ∧ msg.message = WM_QUIT := by
  unfold GetMessage at hg
  simp only [World.log] at hg
  split at hg
  · simp only [Prod.mk.injEq, Option.some.injEq] at hg
    obtain ⟨⟨h1, h2⟩, _⟩ := hg
    exact ⟨h1.symm, by rw [← h2]; rfl⟩
  · simp at hg

theorem messageLoop_nil (le : WStr → WStr → Bool) (w : World) :
    messageLoop le [] w =
      (w.quit.map fun c => toInt (quitMsg c).wParam, w.log Fn.WinMain (Call.GetMessage 0 0 0)) := by
  unfold messageLoop GetMessage
  cases hq : w.quit <;> simp [World.log, hq]

theorem messageLoop_cons_quit (le : WStr → WStr → Bool) (m : MSG) (rest : List MSG) (w : World)
    (hm : m.message = WM_QUIT) :
    messageLoop le (m :: rest) w =
      (some (toInt m.wParam), w.log Fn.WinMain (Call.GetMessage 0 0 0)) := by
  simp [messageLoop, GetMessage, hm]

theorem messageLoop_cons_other (le : WStr → WStr → Bool) (m : MSG) (rest : List MSG) (w : World)
    (hm : m.message ≠ WM_QUIT) :
    messageLoop le (m :: rest) w = messageLoop le rest (loopStep le m w) := by
  simp [messageLoop, GetMessage, hm, loopStep]

theorem messageLoop_first_quit (le : WStr → WStr → Bool) (pre : List MSG) (q : MSG)
    (rest : List MSG) (w : World) (hpre : ∀ m ∈ pre, m.message ≠ WM_QUIT)
    (hq : q.message = WM_QUIT) :
    (messageLoop le (pre ++ q :: rest) w).1 = some (toInt q.wParam) := by
  induction pre generalizing w with
  | nil => rw [List.nil_append, messageLoop_cons_quit le q rest w hq]
  | cons m ms ih =>
    rw [List.cons_append, messageLoop_cons_other le m _ w (hpre m (List.mem_cons_self m ms))]
    exact ih (loopStep le m w) fun x hx => hpre x (List.mem_cons_of_mem m hx)

theorem messageLoop_pending (le : WStr → WStr → Bool) (script : List MSG) (w : World)
    (hs : ∀ m ∈ script, m.message ≠ WM_QUIT) :
    (messageLoop le script w).1 =
      (messageLoop le script w).2.quit.map fun c => toInt (quitMsg c).wParam := by
  induction script generalizing w with
  | nil => rw [messageLoop_nil]; rfl
  | cons m ms ih =>
    rw [messageLoop_cons_other le m ms w (hs m (List.mem_cons_self m ms))]
    exact ih (loopStep le m w) fun x hx => hs x (List.mem_cons_of_mem m hx)

theorem messageLoop_destroy (le : WStr → WStr → Bool) (h : HWND) (script : List MSG) (w : World)
    (hw : findProc h w.windows = some WNDPROC.WndProc)
    (hs : ∀ m ∈ script, m.message ≠ WM_QUIT)
    (hd : w.quit = some 0 ∨ ∃ m ∈ script, m.hwnd = h ∧ m.message = WM_DESTROY) :
    (messageLoop le script w).1 = some 0 := by
  induction script generalizing w with
  | nil =>
    rcases hd with hd | ⟨m, hm, _⟩
    · rw [messageLoop_nil, hd]; rfl
    · exact absurd hm (List.not_mem_nil m)
  | cons m ms ih =>
    rw [messageLoop_cons_other le m ms w (hs m (List.mem_cons_self m ms))]
    obtain ⟨h1, h2, _⟩ := loopStep_frame le m w
    refine ih (loopStep le m w) (by rw [h1]; exact hw)
      (fun x hx => hs x (List.mem_cons_of_mem m hx)) ?_
    by_cases hc : findProc m.hwnd w.windows = some WNDPROC.WndProc ∧ m.message = WM_DESTROY
    · left; rw [h2, if_pos hc]
    · rw [h2, if_neg hc]
      rcases hd with hd | ⟨x, hx, hxh, hxm⟩
      · left; exact hd
      · rcases List.mem_cons.mp hx with rfl | hx
        · exact absurd ⟨by rw [hxh]; exact hw, hxm⟩ hc
        · right; exact ⟨x, hx, hxh, hxm⟩

theorem messageLoop_idle (le : WStr → WStr → Bool) (script : List MSG) (w : World)
    (hw : ∀ h, findProc h w.windows ≠ some WNDPROC.WndProc) (hq : w.quit = none)
    (hs : ∀ m ∈ script, m.message ≠ WM_QUIT) :
    (messageLoop le script w).1 = none := by
  induction script generalizing w with
  | nil => rw [messageLoop_nil, hq]; rfl
  | cons m ms ih =>
    rw [messageLoop_cons_other le m ms w (hs m (List.mem_cons_self m ms))]
    obtain ⟨h1, h2, _⟩ := loopStep_frame le m w
    refine ih (loopStep le m w) (by rw [h1]; exact hw) ?_
      (fun x hx => hs x (List.mem_cons_of_mem m hx))
    rw [h2, if_neg (fun hc => hw m.hwnd hc.1)]
    exact hq

theorem messageLoop_ownCalls (le : WStr → WStr → Bool) (script : List MSG) (w : World) :
    ownCalls Fn.WinMain (messageLoop le script w).2.trace =
      ownCalls Fn.WinMain w.trace ++ loopCalls script := by
  induction script generalizing w with
  | nil =>
    rw [messageLoop_nil]
    simp only [World.log, ownCalls_append, loopCalls]
    rfl
  | cons m ms ih =>
    by_cases hm : m.message = WM_QUIT
    · rw [messageLoop_cons_quit le m ms w hm]
      simp only [World.log, ownCalls_append, loopCalls, hm, if_true]
      rfl
    · rw [messageLoop_cons_other le m ms w hm, ih, (loopStep_frame le m w).2.2]
      simp only [loopCalls, hm, if_false, List.append_assoc, List.cons_append, List.nil_append]

/-! ## Lemmas: the start of `WinMain` -/

theorem CreateWindowW_trace (caller : Fn) (cls : WStr) (title : Option WStr) (style : Nat)
    (x y nw nh : Int) (parent : HWND) (menu inst param : Nat) (w : World) :
    (CreateWindowW caller cls title style x y nw nh parent menu inst param w).2.trace =
      w.trace ++ [⟨caller, Call.CreateWindowW (some cls) title style x y nw nh parent menu
        inst param⟩] := by
  unfold CreateWindowW
  simp only [World.log]
  split
  · split <;> rfl
  · split
    · rfl
    · split <;> rfl

theorem CreateWindowW_notify_ownCalls (le : WStr → WStr → Bool) (cls : WStr)
    (title : Option WStr) (style : Nat) (x y nw nh : Int) (parent : HWND)
    (menu inst param : Nat) (w : World) :
    ownCalls Fn.WinMain
        (CreateWindowW_notify le Fn.WinMain cls title style x y nw nh parent menu inst param
          w).2.trace =
      ownCalls Fn.WinMain w.trace ++
        [Call.CreateWindowW (some cls) title style x y nw nh parent menu inst param] := by
  unfold CreateWindowW_notify
  simp only []
  rw [(windowProc_frame le _ _ _ _ _).2.2, CreateWindowW_trace, ownCalls_append]
  rfl

theorem startup_ownCalls (le : WStr → WStr → Bool) (hInstance : Nat) (w : World) :
    ownCalls Fn.WinMain (startup le hInstance w).trace =
      ownCalls Fn.WinMain w.trace ++
        startupCalls hInstance (w.resources.headD 0) (w.resources.tail.headD 0) := by
  unfold startup
  simp only []
  rw [CreateWindowW_notify_ownCalls]
  have hr : ∀ (wc : WNDCLASSW) (v : World),
      (RegisterClassW Fn.WinMain wc v).2.trace = v.trace ++ [⟨Fn.WinMain, Call.RegisterClassW wc⟩] := by
    intro wc v
    unfold RegisterClassW
    simp only [World.log]
    split <;> rfl
  rw [hr]
  simp only [GetSysColorBrush, LoadCursor, World.log, ownCalls_append, startupCalls,
    List.append_assoc]
  rfl

theorem mainClass_ne_listbox : ¬ (L "SimpleListBox" = WC_LISTBOXW) := by decide

theorem CreateWindowW_registered (caller : Fn) (cls : WStr) (title : Option WStr) (style : Nat)
    (x y nw nh : Int) (parent : HWND) (menu inst param : Nat) (w : World) (wc : WNDCLASSW)
    (hc : ¬ (cls = WC_LISTBOXW)) (hf : findClass cls w.classes = some wc)
    (hh : w.handles.headD 0 ≠ 0) :
    (CreateWindowW caller cls title style x y nw nh parent menu inst param w).1 =
        w.handles.headD 0 ∧
      (CreateWindowW caller cls title style x y nw nh parent menu inst param w).2.windows =
        (w.handles.headD 0, wc.lpfnWndProc) :: w.windows := by
  simp only [CreateWindowW, World.log, hc, if_false, hf, hh, and_self]

theorem CreateWindowW_failed (caller : Fn) (cls : WStr) (title : Option WStr) (style : Nat)
    (x y nw nh : Int) (parent : HWND) (menu inst param : Nat) (w : World)
    (hf : w.handles.headD 0 = 0 ∨ (¬ (cls = WC_LISTBOXW) ∧ findClass cls w.classes = none)) :
    (CreateWindowW caller cls title style x y nw nh parent menu inst param w).1 = 0 ∧
      (CreateWindowW caller cls title style x y nw nh parent menu inst param w).2.windows =
        w.windows ∧
      (CreateWindowW caller cls title style x y nw nh parent menu inst param w).2.quit =
        w.quit := by
  rcases hf with hf | ⟨hc, hf⟩
  · unfold CreateWindowW
    simp only [World.log, hf, if_true]
    split
    · exact ⟨rfl, rfl, rfl⟩
    · split <;> exact ⟨rfl, rfl, rfl⟩
  · simp only [CreateWindowW, World.log, hc, if_false, hf, and_self]

theorem startup_eq (le : WStr → WStr → Bool) (hInstance : Nat) (w : World) :
    startup le hInstance w =
      (CreateWindowW_notify le Fn.WinMain (L "SimpleListBox")
        (some (L "Simple List Box (native compiled in Geany+GCC)"))
        (WS_OVERLAPPEDWINDOW ||| WS_VISIBLE) 100 100 350 200 0 0 hInstance 0
        (RegisterClassW Fn.WinMain
          (mainClass hInstance (w.resources.headD 0) (w.resources.tail.headD 0))
          { w with
            resources := w.resources.tail.tail
            trace := (w.trace ++ [⟨Fn.WinMain, Call.GetSysColorBrush COLOR_3DFACE⟩]) ++
              [⟨Fn.WinMain, Call.LoadCursor 0 IDC_ARROW⟩] }).2).2 := rfl

theorem RegisterClassW_frame (caller : Fn) (wc : WNDCLASSW) (w : World) :
    (RegisterClassW caller wc w).2.classes =
        (if w.atoms.headD 0 = 0 then w.classes else wc :: w.classes) ∧
      (RegisterClassW caller wc w).2.handles = w.handles ∧
      (RegisterClassW caller wc w).2.windows = w.windows ∧
      (RegisterClassW caller wc w).2.quit = w.quit := by
  unfold RegisterClassW
  simp only [World.log]
  split <;> exact ⟨rfl, rfl, rfl, rfl⟩

theorem startup_window (le : WStr → WStr → Bool) (hInstance : Nat) (w : World)
    (ha : w.atoms.headD 0 ≠ 0) (hh : w.handles.headD 0 ≠ 0) :
    findProc (w.handles.headD 0) (startup le hInstance w).windows = some WNDPROC.WndProc := by
  rw [startup_eq]
  unfold CreateWindowW_notify
  simp only []
  rw [(windowProc_frame le _ _ _ _ _).1]
  obtain ⟨h1, h2, _, _⟩ := RegisterClassW_frame Fn.WinMain
    (mainClass hInstance (w.resources.headD 0) (w.resources.tail.headD 0))
    { w with
      resources := w.resources.tail.tail
      trace := (w.trace ++ [⟨Fn.WinMain, Call.GetSysColorBrush COLOR_3DFACE⟩]) ++
        [⟨Fn.WinMain, Call.LoadCursor 0 IDC_ARROW⟩] }
  rw [if_neg ha] at h1
  have h3 := CreateWindowW_registered Fn.WinMain (L "SimpleListBox")
    (some (L "Simple List Box (native compiled in Geany+GCC)"))
    (WS_OVERLAPPEDWINDOW ||| WS_VISIBLE) 100 100 350 200 0 0 hInstance 0 _
    (mainClass hInstance (w.resources.headD 0) (w.resources.tail.headD 0))
    mainClass_ne_listbox (by rw [h1]; simp only [findClass, mainClass, if_true])
    (by rw [h2]; exact hh)
  rw [h3.2, h2]
  simp only [findProc, mainClass]
  rw [if_pos ⟨hh, trivial⟩]

theorem startup_failed (le : WStr → WStr → Bool) (hInstance : Nat) (w : World)
    (hf : w.handles.headD 0 = 0 ∨ (w.atoms.headD 0 = 0 ∧ w.classes = [])) :
    (startup le hInstance w).windows = w.windows ∧ (startup le hInstance w).quit = w.quit := by
  rw [startup_eq]
  unfold CreateWindowW_notify
  simp only []
  obtain ⟨h1, h2, h3, h4⟩ := RegisterClassW_frame Fn.WinMain
    (mainClass hInstance (w.resources.headD 0) (w.resources.tail.headD 0))
    { w with
      resources := w.resources.tail.tail
      trace := (w.trace ++ [⟨Fn.WinMain, Call.GetSysColorBrush COLOR_3DFACE⟩]) ++
        [⟨Fn.WinMain, Call.LoadCursor 0 IDC_ARROW⟩] }
  obtain ⟨h5, h6, h7⟩ := CreateWindowW_failed Fn.WinMain (L "SimpleListBox")
    (some (L "Simple List Box (native compiled in Geany+GCC)"))
    (WS_OVERLAPPEDWINDOW ||| WS_VISIBLE) 100 100 350 200 0 0 hInstance 0
    (RegisterClassW Fn.WinMain
      (mainClass hInstance (w.resources.headD 0) (w.resources.tail.headD 0))
      { w with
        resources := w.resources.tail.tail
        trace := (w.trace ++ [⟨Fn.WinMain, Call.GetSysColorBrush COLOR_3DFACE⟩]) ++
          [⟨Fn.WinMain, Call.LoadCursor 0 IDC_ARROW⟩] }).2
    (by
      rcases hf with hf | ⟨hf1, hf2⟩
      · left; rw [h2]; exact hf
      · right
        refine ⟨mainClass_ne_listbox, ?_⟩
        rw [h1, if_pos hf1]
        show findClass _ w.classes = none
        rw [hf2]; rfl)
  rw [h5, windowProc_eq, findProc_null]
  simp only [if_false, reduceCtorEq]
  rw [h6, h7, h3, h4]
  exact ⟨rfl, rfl⟩

theorem toInt_roundtrip (n : Int) (hlo : -2 ^ 31 ≤ n) (hhi : n < 2 ^ 31) :
    toInt (n % 2 ^ 64).toNat = n := by
  unfold toInt
  simp only []
  norm_num at hlo hhi ⊢
  split <;> omega

/-! ## Lemmas: a whole pass of the message loop -/

theorem messageLoop_run (le : WStr → WStr → Bool) (script : List MSG) (w : World)
    (hs : ∀ m ∈ script, m.message ≠ WM_QUIT) :
    messageLoop le script w = messageLoop le [] (dispatchAll le script w) := by
  induction script generalizing w with
  | nil => rfl
  | cons m ms ih =>
    rw [messageLoop_cons_other le m ms w (hs m (List.mem_cons_self m ms))]
    exact ih (loopStep le m w) fun x hx => hs x (List.mem_cons_of_mem m hx)

theorem dispatchAll_quit (le : WStr → WStr → Bool) (h : HWND) (script : List MSG) (w : World)
    (hw : findProc h w.windows = some WNDPROC.WndProc)
    (hd : w.quit = some 0 ∨ ∃ m ∈ script, m.hwnd = h ∧ m.message = WM_DESTROY) :
    (dispatchAll le script w).quit = some 0 := by
  induction script generalizing w with
  | nil =>
    rcases hd with hd | ⟨m, hm, _⟩
    · exact hd
    · exact absurd hm (List.not_mem_nil m)
  | cons m ms ih =>
    obtain ⟨h1, h2, _⟩ := loopStep_frame le m w
    refine ih (loopStep le m w) (by rw [h1]; exact hw) ?_
    by_cases hc : findProc m.hwnd w.windows = some WNDPROC.WndProc ∧ m.message = WM_DESTROY
    · left; rw [h2, if_pos hc]
    · rw [h2, if_neg hc]
      rcases hd with hd | ⟨x, hx, hxh, hxm⟩
      · left; exact hd
      · rcases List.mem_cons.mp hx with rfl | hx
        · exact absurd ⟨by rw [hxh]; exact hw, hxm⟩ hc
        · right; exact ⟨x, hx, hxh, hxm⟩

theorem windowProc_trace (le : WStr → WStr → Bool) (hwnd : HWND) (msg wParam : Nat)
    (lParam : LPARAM) (w : World) :
    (windowProc le hwnd msg wParam lParam w).2.trace =
      w.trace ++ (if findProc hwnd w.windows = some WNDPROC.WndProc
        then wndProcEvents hwnd msg wParam lParam (w.handles.headD 0) else []) := by
  rw [windowProc_eq]
  by_cases hp : findProc hwnd w.windows = some WNDPROC.WndProc
  · rw [if_pos hp, if_pos hp, WndProc_trace]
  · rw [if_neg hp, if_neg hp, List.append_nil]

theorem loopStep_trace (le : WStr → WStr → Bool) (m : MSG) (w : World) :
    (∀ e ∈ w.trace, e ∈ (loopStep le m w).trace) ∧
    (findProc m.hwnd w.windows = some WNDPROC.WndProc → m.message = WM_DESTROY →
      (⟨Fn.WndProc, Call.PostQuitMessage 0⟩ : Event) ∈ (loopStep le m w).trace) := by
  unfold loopStep DispatchMessage TranslateMessage
  rw [windowProc_trace]
  refine ⟨?_, ?_⟩
  · intro e he
    simp only [World.log]
    exact List.mem_append_left _ (List.mem_append_left _ (List.mem_append_left _
      (List.mem_append_left _ he)))
  · intro hp hm
    have hp2 : findProc m.hwnd (((w.log Fn.WinMain (Call.GetMessage 0 0 0)).log Fn.WinMain
        (Call.TranslateMessage m)).log Fn.WinMain (Call.DispatchMessage m)).windows =
        some WNDPROC.WndProc := hp
    rw [if_pos hp2]
    refine List.mem_append_right _ ?_
    have hne : ¬ (WM_DESTROY = WM_CREATE) := by decide
    simp only [wndProcEvents, hm, hne, if_false, if_true, List.cons_append, List.nil_append,
      List.mem_cons, true_or]

theorem dispatchAll_trace_mono (le : WStr → WStr → Bool) (script : List MSG) (w : World)
    (e : Event) (he : e ∈ w.trace) : e ∈ (dispatchAll le script w).trace := by
  induction script generalizing w with
  | nil => exact he
  | cons m ms ih => exact ih (loopStep le m w) ((loopStep_trace le m w).1 e he)

theorem dispatchAll_posts (le : WStr → WStr → Bool) (h : HWND) (script : List MSG) (w : World)
    (hw : findProc h w.windows = some WNDPROC.WndProc)
    (hd : ∃ m ∈ script, m.hwnd = h ∧ m.message = WM_DESTROY) :
    (⟨Fn.WndProc, Call.PostQuitMessage 0⟩ : Event) ∈ (dispatchAll le script w).trace := by
  induction script generalizing w with
  | nil =>
    obtain ⟨m, hm, _⟩ := hd
    exact absurd hm (List.not_mem_nil m)
  | cons m ms ih =>
    obtain ⟨x, hx, hxh, hxm⟩ := hd
    rcases List.mem_cons.mp hx with rfl | hx
    · exact dispatchAll_trace_mono le ms (loopStep le x w) _
        ((loopStep_trace le x w).2 (by rw [hxh]; exact hw) hxm)
    · exact ih (loopStep le m w) (by rw [(loopStep_frame le m w).1]; exact hw)
        ⟨x, hx, hxh, hxm⟩

theorem messageLoop_no_destroy (le : WStr → WStr → Bool) (script : List MSG) (w : World)
    (hq : w.quit = none) (hs : ∀ m ∈ script, m.message ≠ WM_QUIT)
    (hd : ∀ m ∈ script, m.message ≠ WM_DESTROY) :
    (messageLoop le script w).1 = none := by
  induction script generalizing w with
  | nil => rw [messageLoop_nil, hq]; rfl
  | cons m ms ih =>
    rw [messageLoop_cons_other le m ms w (hs m (List.mem_cons_self m ms))]
    refine ih (loopStep le m w) ?_ (fun x hx => hs x (List.mem_cons_of_mem m hx))
      (fun x hx => hd x (List.mem_cons_of_mem m hx))
    rw [(loopStep_frame le m w).2.1, if_neg (fun hc => hd m (List.mem_cons_self m ms) hc.2)]
    exact hq

theorem CreateWindowW_quit (caller : Fn) (cls : WStr) (title : Option WStr) (style : Nat)
    (x y nw nh : Int) (parent : HWND) (menu inst param : Nat) (w : World) :
    (CreateWindowW caller cls title style x y nw nh parent menu inst param w).2.quit =
      w.quit := by
  unfold CreateWindowW
  simp only [World.log]
  split
  · split <;> rfl
  · split
    · rfl
    · split <;> rfl

theorem startup_quit (le : WStr → WStr → Bool) (hInstance : Nat) (w : World) :
    (startup le hInstance w).quit = w.quit := by
  rw [startup_eq]
  unfold CreateWindowW_notify
  simp only []
  rw [(windowProc_frame le _ _ _ _ _).2.1,
    if_neg (fun hc => WM_CREATE_ne_WM_DESTROY hc.2), CreateWindowW_quit,
    (RegisterClassW_frame _ _ _).2.2.2]

/-! ## Claims about `WinMain` -/

/-- C1: `WndProc` answers `WM_DESTROY` by requesting quit with exit code 0 (and nothing
else before the default procedure); a pending quit request makes `GetMessage` return 0
with the quit message, on which the loop exits. For every message script without a quit
message of its own that delivers `WM_DESTROY` to the created window, the run of
`WinMain` is exactly this chain: every message of the script is retrieved, translated
and dispatched, `WndProc` has called `PostQuitMessage(0)`, the quit request for code 0
is pending, the last `GetMessage` hands out its quit message with result 0, and
`WinMain` returns 0. When no `WM_DESTROY` is delivered and no quit is pending or
queued, `WinMain` does not return. -/
theorem closing_window_exits_zero (le : WStr → WStr → Bool) (hInstance hPrevInstance : Nat)
    (pCmdLine : List Nat) (nCmdShow : Int) (script : List MSG) (w : World) :
    (∀ hwnd wParam lParam v,
      (WndProc le hwnd WM_DESTROY wParam lParam v).2.quit = some 0 ∧
      (WndProc le hwnd WM_DESTROY wParam lParam v).2.trace = v.trace ++
        [⟨Fn.WndProc, Call.PostQuitMessage 0⟩,
          ⟨Fn.WndProc, Call.DefWindowProcW hwnd WM_DESTROY wParam lParam⟩]) ∧
    (∀ v, v.quit = some 0 →
      (GetMessage Fn.WinMain none 0 0 0 v).1 = some (0, quitMsg 0) ∧
      (messageLoop le [] v).1 = some 0) ∧
    (w.atoms.headD 0 ≠ 0 → w.handles.headD 0 ≠ 0 →
      (∀ m ∈ script, m.message ≠ WM_QUIT) →
      (∃ m ∈ script, m.hwnd = w.handles.headD 0 ∧ m.message = WM_DESTROY) →
      (dispatchAll le script (startup le hInstance w)).quit = some 0 ∧
      GetMessage Fn.WinMain none 0 0 0 (dispatchAll le script (startup le hInstance w)) =
        (some (0, quitMsg 0),
          (dispatchAll le script (startup le hInstance w)).log Fn.WinMain
            (Call.GetMessage 0 0 0)) ∧
      WinMain le hInstance hPrevInstance pCmdLine nCmdShow script w =
        (some 0,
          (dispatchAll le script (startup le hInstance w)).log Fn.WinMain
            (Call.GetMessage 0 0 0)) ∧
      (⟨Fn.WndProc, Call.PostQuitMessage 0⟩ : Event) ∈
        (WinMain le hInstance hPrevInstance pCmdLine nCmdShow script w).2.trace ∧
      ownCalls Fn.WinMain
          (WinMain le hInstance hPrevInstance pCmdLine nCmdShow script w).2.trace =
        ownCalls Fn.WinMain w.trace ++
          startupCalls hInstance (w.resources.headD 0) (w.resources.tail.headD 0) ++
          loopCalls script ∧
      (WinMain le hInstance hPrevInstance pCmdLine nCmdShow script w).2.quit = some 0) ∧
    (w.quit = none → (∀ m ∈ script, m.message ≠ WM_QUIT) →
      (∀ m ∈ script, m.message ≠ WM_DESTROY) →
      (WinMain le hInstance hPrevInstance pCmdLine nCmdShow script w).1 = none) := by
  refine ⟨?_, ?_, ?_, ?_⟩
  · intro hwnd wParam lParam v
    refine ⟨?_, ?_⟩
    · rw [(WndProc_frame le hwnd WM_DESTROY wParam lParam v).2.2, if_pos rfl]
    · rw [WndProc_trace]
      rfl
  · intro v hv
    refine ⟨?_, ?_⟩
    · simp only [GetMessage, World.log, hv]
    · rw [messageLoop_nil, hv]
      rfl
  · intro ha hh hs hd
    have hq := dispatchAll_quit le (w.handles.headD 0) script (startup le hInstance w)
      (startup_window le hInstance w ha hh) (Or.inr hd)
    have hrun : WinMain le hInstance hPrevInstance pCmdLine nCmdShow script w =
        (some 0, (dispatchAll le script (startup le hInstance w)).log Fn.WinMain
          (Call.GetMessage 0 0 0)) := by
      rw [WinMain_eq, messageLoop_run le script _ hs, messageLoop_nil, hq]
      rfl
    refine ⟨hq, ?_, hrun, ?_, ?_, ?_⟩
    · simp only [GetMessage, World.log, hq]
    · rw [hrun]
      simp only [World.log]
      exact List.mem_append_left _
        (dispatchAll_posts le (w.handles.headD 0) script (startup le hInstance w)
          (startup_window le hInstance w ha hh) hd)
    · rw [WinMain_eq, messageLoop_ownCalls, startup_ownCalls]
    · rw [hrun]
      exact hq
  · intro hq hs hd
    rw [WinMain_eq]
    exact messageLoop_no_destroy le script _ (by rw [startup_quit]; exact hq) hs hd

/-- Witness for C1: the window gets handle 5; a paint message, the destroy notification
and a late message are delivered, and `WinMain` returns 0 with the quit request pending.
A world with a pending quit request for code 0 leaves the loop with 0. With a paint
message alone `WinMain` does not return. -/
theorem closing_window_exits_zero_witness :
    ((WinMain wstrLe 1 0 [] 1
      [⟨5, 15, 0, LPARAM.int 0⟩, ⟨5, WM_DESTROY, 0, LPARAM.int 0⟩, ⟨5, 130, 0, LPARAM.int 0⟩]
      { atoms := [49152], handles := [5, 7] }).1 = some 0 ∧
      (WinMain wstrLe 1 0 [] 1
      [⟨5, 15, 0, LPARAM.int 0⟩, ⟨5, WM_DESTROY, 0, LPARAM.int 0⟩, ⟨5, 130, 0, LPARAM.int 0⟩]
      { atoms := [49152], handles := [5, 7] }).2.quit = some 0) ∧
    (messageLoop wstrLe [] { quit := some 0 }).1 = some 0 ∧
    (WinMain wstrLe 1 0 [] 1 [⟨5, 15, 0, LPARAM.int 0⟩]
      { atoms := [49152], handles := [5, 7] }).1 = none :=
  ⟨⟨congrArg Prod.fst ((closing_window_exits_zero wstrLe 1 0 [] 1
      [⟨5, 15, 0, LPARAM.int 0⟩, ⟨5, WM_DESTROY, 0, LPARAM.int 0⟩, ⟨5, 130, 0, LPARAM.int 0⟩]
      { atoms := [49152], handles := [5, 7] }).2.2.1 (by decide) (by decide) (by decide)
      ⟨⟨5, WM_DESTROY, 0, LPARAM.int 0⟩, by decide, rfl, rfl⟩).2.2.1,
    ((closing_window_exits_zero wstrLe 1 0 [] 1
      [⟨5, 15, 0, LPARAM.int 0⟩, ⟨5, WM_DESTROY, 0, LPARAM.int 0⟩, ⟨5, 130, 0, LPARAM.int 0⟩]
      { atoms := [49152], handles := [5, 7] }).2.2.1 (by decide) (by decide) (by decide)
      ⟨⟨5, WM_DESTROY, 0, LPARAM.int 0⟩, by decide, rfl, rfl⟩).2.2.2.2.2⟩,
    ((closing_window_exits_zero wstrLe 1 0 [] 1 [] {}).2.1 { quit := some 0 } rfl).2,
    (closing_window_exits_zero wstrLe 1 0 [] 1 [⟨5, 15, 0, LPARAM.int 0⟩]
      { atoms := [49152], handles := [5, 7] }).2.2.2 rfl (by decide) (by decide)⟩

/-- C7: whatever was dispatched before, when the loop retrieves a quit message `q`
`WinMain` returns `q.wParam` converted to `int`; the same holds for the quit message made
from a pending quit request; the conversion is the identity on payloads below `2^31` and
gives back every `int` exit code that was posted. -/
theorem exit_code_is_quit_payload (le : WStr → WStr → Bool) (hInstance hPrevInstance : Nat)
    (pCmdLine : List Nat) (nCmdShow : Int) (pre : List MSG) (q : MSG) (rest : List MSG)
    (w : World) (hpre : ∀ m ∈ pre, m.message ≠ WM_QUIT) :
    (q.message = WM_QUIT →
      (WinMain le hInstance hPrevInstance pCmdLine nCmdShow (pre ++ q :: rest) w).1 =
        some (toInt q.wParam)) ∧
    (WinMain le hInstance hPrevInstance pCmdLine nCmdShow pre w).1 =
      (WinMain le hInstance hPrevInstance pCmdLine nCmdShow pre w).2.quit.map
        (fun c => toInt (quitMsg c).wParam) ∧
    (q.wParam < 2 ^ 31 → toInt q.wParam = Int.ofNat q.wParam) ∧
    (∀ n : Int, -2 ^ 31 ≤ n → n < 2 ^ 31 → toInt (n % 2 ^ 64).toNat = n) := by
  refine ⟨?_, ?_, toInt_of_lt q.wParam, toInt_roundtrip⟩
  · intro hq
    rw [WinMain_eq]
    exact messageLoop_first_quit le pre q rest _ hpre hq
  · rw [WinMain_eq]
    exact messageLoop_pending le pre _ hpre

/-- Witness for C7: two messages are dispatched, then a quit message with payload 7
arrives; 7 converts to 7, and the posted exit code -1 comes back as -1. -/
theorem exit_code_is_quit_payload_witness :
    (WinMain wstrLe 1 0 [] 1
      ([⟨5, 15, 0, LPARAM.int 0⟩, ⟨5, 130, 0, LPARAM.int 0⟩] ++
        ⟨0, WM_QUIT, 7, LPARAM.int 0⟩ :: [])
      { atoms := [49152], handles := [5, 7] }).1 = some (toInt 7) ∧
    toInt 7 = Int.ofNat 7 ∧
    toInt ((-1 : Int) % 2 ^ 64).toNat = -1 :=
  ⟨(exit_code_is_quit_payload wstrLe 1 0 [] 1
      [⟨5, 15, 0, LPARAM.int 0⟩, ⟨5, 130, 0, LPARAM.int 0⟩] ⟨0, WM_QUIT, 7, LPARAM.int 0⟩ []
      { atoms := [49152], handles := [5, 7] } (by decide)).1 rfl,
    (exit_code_is_quit_payload wstrLe 1 0 [] 1
      [⟨5, 15, 0, LPARAM.int 0⟩, ⟨5, 130, 0, LPARAM.int 0⟩] ⟨0, WM_QUIT, 7, LPARAM.int 0⟩ []
      { atoms := [49152], handles := [5, 7] } (by decide)).2.2.1 (by decide),
    (exit_code_is_quit_payload wstrLe 1 0 [] 1
      [⟨5, 15, 0, LPARAM.int 0⟩, ⟨5, 130, 0, LPARAM.int 0⟩] ⟨0, WM_QUIT, 7, LPARAM.int 0⟩ []
      { atoms := [49152], handles := [5, 7] } (by decide)).2.2.2 (-1) (by decide) (by decide)⟩

/-- C9: the calls `WinMain` makes itself are the four start-up calls followed by the
loop calls of the script, whatever atoms and handles the platform returns;
`CreateControl` stores whatever handle the creation returns and sends its seven messages
to it, to the null handle too, where they reach no control; and when the window
creation fails `WinMain` returns no error value: without a quit message it stays in the
loop. -/
theorem creation_results_unchecked (le : WStr → WStr → Bool) (hInstance hPrevInstance : Nat)
    (pCmdLine : List Nat) (nCmdShow : Int) (script : List MSG) (hwnd : HWND) (w : World)
    (atoms : List Nat) (handles : List HWND) :
    ownCalls Fn.WinMain (WinMain le hInstance hPrevInstance pCmdLine nCmdShow script
        { w with atoms := atoms, handles := handles }).2.trace =
      ownCalls Fn.WinMain w.trace ++
        startupCalls hInstance (w.resources.headD 0) (w.resources.tail.headD 0) ++
        loopCalls script ∧
    ((CreateControl le hwnd { w with handles := handles }).hList = handles.headD 0 ∧
      (CreateControl le hwnd { w with handles := handles }).trace =
        w.trace ++ (controlCalls hwnd (handles.headD 0)).map (Event.mk Fn.CreateControl)) ∧
    ((CreateControl le hwnd { w with handles := 0 :: handles }).hList = 0 ∧
      (CreateControl le hwnd { w with handles := 0 :: handles }).boxes = w.boxes ∧
      (CreateControl le hwnd { w with handles := 0 :: handles }).trace =
        w.trace ++ (controlCalls hwnd 0).map (Event.mk Fn.CreateControl)) ∧
    ((handles.headD 0 = 0 ∨ (atoms.headD 0 = 0 ∧ w.classes = [])) →
      (∀ h, findProc h w.windows ≠ some WNDPROC.WndProc) → w.quit = none →
      (∀ m ∈ script, m.message ≠ WM_QUIT) →
      (WinMain le hInstance hPrevInstance pCmdLine nCmdShow script
        { w with atoms := atoms, handles := handles }).1 = none) := by
  refine ⟨?_, ?_, ?_, ?_⟩
  · rw [WinMain_eq, messageLoop_ownCalls, startup_ownCalls]
  · exact CreateControl_trace le hwnd { w with handles := handles }
  · rw [CreateControl_failed le hwnd { w with handles := 0 :: handles } rfl]
    exact ⟨rfl, rfl, rfl⟩
  · intro hf hw hq hs
    rw [WinMain_eq]
    obtain ⟨h1, h2⟩ := startup_failed le hInstance { w with atoms := atoms, handles := handles } hf
    exact messageLoop_idle le script _ (by rw [h1]; exact hw) (by rw [h2]; exact hq) hs

/-- Witness for C9: registration and window creation both fail; `WinMain` still runs
the loop over two messages and does not return. -/
theorem creation_results_unchecked_witness :
    (WinMain wstrLe 1 0 [] 1 [⟨5, 15, 0, LPARAM.int 0⟩, ⟨5, WM_DESTROY, 0, LPARAM.int 0⟩]
      { ({} : World) with atoms := [0], handles := [0] }).1 = none :=
  (creation_results_unchecked wstrLe 1 0 [] 1
    [⟨5, 15, 0, LPARAM.int 0⟩, ⟨5, WM_DESTROY, 0, LPARAM.int 0⟩] 5 {} [0] [0]).2.2.2
    (Or.inl rfl) (fun _ => by simp [findProc]) rfl (by decide)

/-! ## Lemmas: sortedness of the list controls -/

theorem handle_sorted (le : WStr → WStr → Bool)
    (total : ∀ a b, le a b = true ∨ le b a = true)
    (trans : ∀ a b c, le a b = true → le b c = true → le a c = true)
    (lb : ListBox) (msg wParam : Nat) (lParam : LPARAM)
    (hl : lb.style &&& LBS_SORT ≠ 0 → lb.items.Sorted (leRel le)) :
    (lb.handle le msg wParam lParam).2.style &&& LBS_SORT ≠ 0 →
      (lb.handle le msg wParam lParam).2.items.Sorted (leRel le) := by
  unfold ListBox.handle
  split
  · split
    · split
      · next hs =>
        intro _
        exact lbInsert_sorted le total trans _ lb.items (hl hs)
      · next hs =>
        intro h
        exact absurd h hs
    · exact hl
  · split
    · split
      · exact hl
      · split
        · exact hl
        · exact hl
    · exact hl

theorem findBox_mem (h : HWND) (bs : List (HWND × ListBox)) (lb : ListBox)
    (hf : findBox h bs = some lb) : (h, lb) ∈ bs := by
  induction bs with
  | nil => simp [findBox] at hf
  | cons b rest ih =>
    obtain ⟨k, x⟩ := b
    simp only [findBox] at hf
    by_cases hk : h ≠ 0 ∧ k = h
    · rw [if_pos hk] at hf
      obtain ⟨_, rfl⟩ := hk
      cases hf
      exact List.mem_cons_self _ _
    · rw [if_neg hk] at hf
      exact List.mem_cons_of_mem _ (ih hf)

theorem setBox_mem (h : HWND) (new : ListBox) (bs : List (HWND × ListBox))
    (p : HWND × ListBox) (hp : p ∈ setBox h new bs) : p ∈ bs ∨ p.2 = new := by
  induction bs with
  | nil => simp [setBox] at hp
  | cons b rest ih =>
    obtain ⟨k, x⟩ := b
    simp only [setBox] at hp
    by_cases hk : h ≠ 0 ∧ k = h
    · rw [if_pos hk] at hp
      rcases List.mem_cons.mp hp with rfl | hp
      · right; rfl
      · left; exact List.mem_cons_of_mem _ hp
    · rw [if_neg hk] at hp
      rcases List.mem_cons.mp hp with rfl | hp
      · left; exact List.mem_cons_self _ _
      · rcases ih hp with h1 | h1
        · left; exact List.mem_cons_of_mem _ h1
        · right; exact h1

theorem SendMessageW_sorted (le : WStr → WStr → Bool)
    (total : ∀ a b, le a b = true ∨ le b a = true)
    (trans : ∀ a b c, le a b = true → le b c = true → le a c = true)
    (caller : Fn) (hWnd : HWND) (msg wParam : Nat) (lParam : LPARAM) (w : World)
    (hw : SortedBoxes le w) :
    SortedBoxes le (SendMessageW le caller hWnd msg wParam lParam w).2 := by
  unfold SendMessageW
  simp only [World.log]
  split
  · exact hw
  · next lb hf =>
    intro p hp
    rcases setBox_mem hWnd _ w.boxes p hp with h1 | h1
    · exact hw p h1
    · rw [h1]
      exact handle_sorted le total trans lb msg wParam lParam (hw (hWnd, lb) (findBox_mem hWnd w.boxes lb hf))

theorem CreateWindowW_sorted (le : WStr → WStr → Bool) (caller : Fn) (cls : WStr)
    (title : Option WStr) (style : Nat) (x y nw nh : Int) (parent : HWND)
    (menu inst param : Nat) (w : World) (hw : SortedBoxes le w) :
    SortedBoxes le (CreateWindowW caller cls title style x y nw nh parent menu inst param w).2 := by
  unfold CreateWindowW
  simp only [World.log]
  split
  · split
    · exact hw
    · intro p hp
      rcases List.mem_cons.mp hp with rfl | hp
      · intro _
        exact List.sorted_nil
      · exact hw p hp
  · split
    · exact hw
    · split <;> exact hw

theorem CreateControl_sorted (le : WStr → WStr → Bool)
    (total : ∀ a b, le a b = true ∨ le b a = true)
    (trans : ∀ a b c, le a b = true → le b c = true → le a c = true)
    (hwnd : HWND) (w : World) (hw : SortedBoxes le w) :
    SortedBoxes le (CreateControl le hwnd w) := by
  by_cases hh : w.handles.headD 0 = 0
  · rw [CreateControl_failed le hwnd w hh]
    intro p hp
    exact hw p hp
  · rw [CreateControl_created le hwnd w hh]
    intro p hp
    rcases List.mem_cons.mp hp with rfl | hp
    · intro _
      exact insertAll_sorted le total trans configured [] List.sorted_nil
    · exact hw p hp

theorem SortedBoxes_congr (le : WStr → WStr → Bool) (a b : World) (hb : a.boxes = b.boxes)
    (h : SortedBoxes le b) : SortedBoxes le a := by
  intro p hp
  rw [hb] at hp
  exact h p hp

theorem DefWindowProcW_boxes (caller : Fn) (hWnd : HWND) (msg wParam : Nat) (lParam : LPARAM)
    (w : World) : (DefWindowProcW caller hWnd msg wParam lParam w).2.boxes = w.boxes := rfl

theorem WndProc_sorted (le : WStr → WStr → Bool)
    (total : ∀ a b, le a b = true ∨ le b a = true)
    (trans : ∀ a b c, le a b = true → le b c = true → le a c = true)
    (hwnd : HWND) (msg wParam : Nat) (lParam : LPARAM) (w : World) (hw : SortedBoxes le w) :
    SortedBoxes le (WndProc le hwnd msg wParam lParam w).2 := by
  by_cases hc : msg = WM_CREATE
  · subst hc
    rw [WndProc_create]
    exact SortedBoxes_congr le _ _ (DefWindowProcW_boxes _ _ _ _ _ _)
      (CreateControl_sorted le total trans hwnd w hw)
  · by_cases hd : msg = WM_DESTROY
    · subst hd
      rw [WndProc_destroy, PostQuitMessage_zero]
      exact SortedBoxes_congr le _ _ (DefWindowProcW_boxes _ _ _ _ _ _) hw
    · rw [WndProc_other le hwnd msg wParam lParam w hc hd]
      exact SortedBoxes_congr le _ _ (DefWindowProcW_boxes _ _ _ _ _ _) hw

theorem windowProc_sorted (le : WStr → WStr → Bool)
    (total : ∀ a b, le a b = true ∨ le b a = true)
    (trans : ∀ a b c, le a b = true → le b c = true → le a c = true)
    (hwnd : HWND) (msg wParam : Nat) (lParam : LPARAM) (w : World) (hw : SortedBoxes le w) :
    SortedBoxes le (windowProc le hwnd msg wParam lParam w).2 := by
  rw [windowProc_eq]
  split
  · exact WndProc_sorted le total trans hwnd msg wParam lParam w hw
  · exact hw

theorem messageLoop_sorted (le : WStr → WStr → Bool)
    (total : ∀ a b, le a b = true ∨ le b a = true)
    (trans : ∀ a b c, le a b = true → le b c = true → le a c = true)
    (script : List MSG) (w : World) (hw : SortedBoxes le w) :
    SortedBoxes le (messageLoop le script w).2 := by
  induction script generalizing w with
  | nil => rw [messageLoop_nil]; exact hw
  | cons m ms ih =>
    by_cases hm : m.message = WM_QUIT
    · rw [messageLoop_cons_quit le m ms w hm]; exact hw
    · rw [messageLoop_cons_other le m ms w hm]
      exact ih (loopStep le m w) (windowProc_sorted le total trans _ _ _ _ _ hw)

theorem startup_sorted (le : WStr → WStr → Bool)
    (total : ∀ a b, le a b = true ∨ le b a = true)
    (trans : ∀ a b c, le a b = true → le b c = true → le a c = true)
    (hInstance : Nat) (w : World) (hw : SortedBoxes le w) :
    SortedBoxes le (startup le hInstance w) := by
  rw [startup_eq]
  unfold CreateWindowW_notify
  simp only []
  refine windowProc_sorted le total trans _ _ _ _ _ (CreateWindowW_sorted le _ _ _ _ _ _ _ _ _ _ _ _ _ ?_)
  unfold RegisterClassW
  simp only [World.log]
  split <;> exact hw

theorem foldl_addstring (le : WStr → WStr → Bool) (strs : List WStr) (lb : ListBox)
    (hs : lb.style &&& LBS_SORT ≠ 0) :
    (strs.foldl (fun b s => (b.handle le LB_ADDSTRING 0 (LPARAM.wstr s)).2) lb) =
      { lb with items := insertAll le strs lb.items } := by
  induction strs generalizing lb with
  | nil => rfl
  | cons s rest ih =>
    simp only [List.foldl_cons, handle_addstring le lb 0 s hs]
    rw [ih ⟨lb.style, lbInsert le s lb.items, lb.curSel⟩ hs]
    rfl

/-! ## Claim about the sort style -/

/-- C4: under code-unit (lexicographic) ordering, sortedness of every sort-style control
is kept by every message sent, by `CreateControl`, and by a whole run of `WinMain`; the
control `CreateControl` creates holds a sorted sequence; and a sort-style control that
starts empty holds a sorted sequence after the insertion of any strings in any order. -/
theorem sort_style_keeps_items_sorted (w : World) (hw : SortedBoxes wstrLe w) :
    (∀ caller hWnd msg wParam lParam,
      SortedBoxes wstrLe (SendMessageW wstrLe caller hWnd msg wParam lParam w).2) ∧
    (∀ hwnd, SortedBoxes wstrLe (CreateControl wstrLe hwnd w)) ∧
    (∀ hwnd, w.handles.headD 0 ≠ 0 →
      ∃ items, (CreateControl wstrLe hwnd w).listItems = some items ∧
        items.Sorted (leRel wstrLe)) ∧
    (∀ hInstance hPrevInstance pCmdLine nCmdShow script,
      SortedBoxes wstrLe
        (WinMain wstrLe hInstance hPrevInstance pCmdLine nCmdShow script w).2) ∧
    (∀ (lb : ListBox) (strs : List WStr), lb.style &&& LBS_SORT ≠ 0 → lb.items = [] →
      (strs.foldl (fun b s => (b.handle wstrLe LB_ADDSTRING 0 (LPARAM.wstr s)).2) lb).items.Sorted
        (leRel wstrLe)) := by
  refine ⟨?_, ?_, ?_, ?_, ?_⟩
  · intro caller hWnd msg wParam lParam
    exact SendMessageW_sorted wstrLe wstrLe_total wstrLe_trans caller hWnd msg wParam lParam w hw
  · intro hwnd
    exact CreateControl_sorted wstrLe wstrLe_total wstrLe_trans hwnd w hw
  · intro hwnd hh
    exact ⟨_, CreateControl_listItems wstrLe hwnd w hh,
      insertAll_sorted wstrLe wstrLe_total wstrLe_trans configured [] List.sorted_nil⟩
  · intro hInstance hPrevInstance pCmdLine nCmdShow script
    rw [WinMain_eq]
    exact messageLoop_sorted wstrLe wstrLe_total wstrLe_trans script _
      (startup_sorted wstrLe wstrLe_total wstrLe_trans hInstance w hw)
  · intro lb strs hs he
    rw [foldl_addstring wstrLe strs lb hs, he]
    exact insertAll_sorted wstrLe wstrLe_total wstrLe_trans strs [] List.sorted_nil

/-- Witness for C4: from a world without controls, `CreateControl` with a successful
creation leaves every sort-style control sorted and its own control sorted; a
sort-style control that starts empty is sorted after "Red", "Blue", "Red". -/
theorem sort_style_keeps_items_sorted_witness :
    SortedBoxes wstrLe (CreateControl wstrLe 5 { handles := [7] }) ∧
    (∃ items, (CreateControl wstrLe 5 { handles := [7] }).listItems = some items ∧
      items.Sorted (leRel wstrLe)) ∧
    (List.foldl (fun (b : ListBox) s => (b.handle wstrLe LB_ADDSTRING 0 (LPARAM.wstr s)).2)
      { style := LBS_SORT, items := [], curSel := none }
      [L "Red", L "Blue", L "Red"]).items.Sorted (leRel wstrLe) :=
  ⟨(sort_style_keeps_items_sorted { handles := [7] }
      (fun p hp => absurd hp (List.not_mem_nil p))).2.1 5,
    (sort_style_keeps_items_sorted { handles := [7] }
      (fun p hp => absurd hp (List.not_mem_nil p))).2.2.1 5 (by decide),
    (sort_style_keeps_items_sorted { handles := [7] }
      (fun p hp => absurd hp (List.not_mem_nil p))).2.2.2.2
      { style := LBS_SORT, items := [], curSel := none } [L "Red", L "Blue", L "Red"]
      (by decide) rfl⟩

end SimpleListBox
